import Mathlib

/-!
Verification of the ifc5cad "ifc-lite" codec (statement/argument splitter,
entity parser, geometry interpreter, spatial graph builder, exchange writer).

The embedding works over `List Char` for text and `ℚ` for JavaScript numbers
(all numeric paths exercised here are exact in the rationals; `ratSqrt` is
exact whenever its argument is the square of a rational, which holds at every
input any theorem below evaluates).  JavaScript `Map`s become association
lists, mutable visited `Set`s become threaded lists, and the two
visited-set-guarded recursions are given an explicit recursion budget
(`fuel`); the budget `byId.length + 1` provably dominates the recursion depth
and the tree builder is shown to be fuel-stable, which is the termination
content of the original code.
-/

namespace IfcLite

/-- ASCII/JS whitespace, as used by `String.prototype.trim` and `\s`
(restricted to the ASCII range; the files at issue contain only ASCII). -/
def isJsWs (c : Char) : Bool :=
  c = ' ' ∨ c = '\t' ∨ c = '\n' ∨ c = '\r' ∨ c = '\x0b' ∨ c = '\x0c'

/-- JS `String.prototype.trim` on a character list. -/
def trimL (s : List Char) : List Char :=
  ((s.dropWhile isJsWs).reverse.dropWhile isJsWs).reverse

/-- Literal helper: a Lean string literal as a character list. -/
def lit (s : String) : List Char := s.data

/-- JS `toUpperCase`, modelled on the ASCII range (`Char.toUpper`). -/
def upperL (s : List Char) : List Char := s.map Char.toUpper

/-- Value of a digit list, most significant first (`Number.parseInt(ds, 10)`
on an all-digit string). -/
def digitsToNat (ds : List Char) : Nat :=
  ds.foldl (fun a c => a * 10 + (c.toNat - '0'.toNat)) 0

/-- Decimal digits of `n`, used where the writer interpolates a number (the
budget argument bounds the digit count; `n` itself always suffices). -/
def natToDigitsAux : Nat → Nat → List Char → List Char
  | 0, _, acc => acc
  | fuel + 1, n, acc =>
    if n = 0 then acc
    else natToDigitsAux fuel (n / 10) (Char.ofNat ('0'.toNat + n % 10) :: acc)

def natToDigits (n : Nat) : List Char :=
  if n = 0 then ['0'] else natToDigitsAux n n []

/-- JS `Number.parseFloat`, restricted to finite decimal/exponent literals:
longest valid prefix after leading whitespace; `none` models `NaN` (the
callers filter with `Number.isFinite`, so `none` and non-finite coincide on
the inputs at issue; the `Infinity` keyword is not modelled). -/
def jsParseFloat (v : List Char) : Option ℚ :=
  let s := v.dropWhile isJsWs
  let sgn : ℚ := if s.head? = some '-' then -1 else 1
  let s1 := if s.head? = some '-' ∨ s.head? = some '+' then s.drop 1 else s
  let ip := s1.takeWhile Char.isDigit
  let s2 := s1.drop ip.length
  let fp := if s2.head? = some '.' then (s2.drop 1).takeWhile Char.isDigit else []
  let s3 := if s2.head? = some '.' then (s2.drop 1).drop fp.length else s2
  if ip = [] ∧ fp = [] then none
  else
    let mant : ℚ := (digitsToNat ip : ℚ) + (digitsToNat fp : ℚ) / ((10 : ℚ) ^ fp.length)
    let expo : ℤ :=
      if s3.head? = some 'e' ∨ s3.head? = some 'E' then
        let r := s3.drop 1
        let esgn : ℤ := if r.head? = some '-' then -1 else 1
        let r2 := if r.head? = some '-' ∨ r.head? = some '+' then r.drop 1 else r
        let ed := r2.takeWhile Char.isDigit
        if ed = [] then 0 else esgn * (digitsToNat ed : ℤ)
      else 0
    some (sgn * mant * (10 : ℚ) ^ expo)

/-! ## Statement & argument splitter (src/unnamed/part_011, `ifcLiteParser`) -/

/-- The scan of `splitStatements`: tracks a string-literal flag (a doubled
quote inside a literal is an escaped quote and does not toggle); a `;`
outside a literal ends the current statement (trimmed, dropped when blank).
Note: no parenthesis depth is tracked here. -/
def splitStatementsAux : List Char → List Char → Bool → List (List Char)
  | [], cur, _ => if trimL cur = [] then [] else [trimL cur]
  | '\'' :: '\'' :: rest, cur, true => splitStatementsAux rest (cur ++ ['\'', '\'']) true
  | '\'' :: rest, cur, true => splitStatementsAux rest (cur ++ ['\'']) false
  | '\'' :: rest, cur, false => splitStatementsAux rest (cur ++ ['\'']) true
  | ';' :: rest, cur, false =>
      (if trimL cur = [] then [] else [trimL cur]) ++ splitStatementsAux rest [] false
  | c :: rest, cur, inString => splitStatementsAux rest (cur ++ [c]) inString

/-- `splitStatements(dataSection)` of the parser. -/
def splitStatements (dataSection : List Char) : List (List Char) :=
  splitStatementsAux dataSection [] false

/-- The scan of `splitTopLevel`: literal flag with doubled-quote escapes plus
a parenthesis-depth counter; a top-level comma (depth zero, outside a
literal) pushes the trimmed current token; the trailing token is pushed only
when non-blank. -/
def splitTopLevelAux : List Char → List Char → Int → Bool → List (List Char)
  | [], cur, _, _ => if trimL cur = [] then [] else [trimL cur]
  | '\'' :: '\'' :: rest, cur, d, true => splitTopLevelAux rest (cur ++ ['\'', '\'']) d true
  | '\'' :: rest, cur, d, true => splitTopLevelAux rest (cur ++ ['\'']) d false
  | '\'' :: rest, cur, d, false => splitTopLevelAux rest (cur ++ ['\'']) d true
  | c :: rest, cur, d, false =>
      if c = '(' then splitTopLevelAux rest (cur ++ [c]) (d + 1) false
      else if c = ')' then splitTopLevelAux rest (cur ++ [c]) (d - 1) false
      else if c = ',' ∧ d = 0 then trimL cur :: splitTopLevelAux rest [] d false
      else splitTopLevelAux rest (cur ++ [c]) d false
  | c :: rest, cur, d, true => splitTopLevelAux rest (cur ++ [c]) d true

/-- `splitTopLevel(value)` of the parser. -/
def splitTopLevel (value : List Char) : List (List Char) :=
  splitTopLevelAux value [] 0 false

/-- `parseEntityReference`: a token exactly `#<digits>` (after trimming)
gives the integer, anything else is absent. -/
def parseEntityReference (value : List Char) : Option Nat :=
  match trimL value with
  | '#' :: ds => if ds ≠ [] ∧ ds.all Char.isDigit then some (digitsToNat ds) else none
  | _ => none

/-- `parseReferenceList`: a parenthesised token split at top level, each
element parsed as a reference, absent entries dropped. -/
def parseReferenceList (value : List Char) : List Nat :=
  let t := trimL value
  if t.head? = some '(' ∧ t.getLast? = some ')' then
    ((splitTopLevel ((t.drop 1).dropLast)).filterMap parseEntityReference)
  else []

/-- Left-to-right collapse of doubled single quotes (`replace(/''/g, "'")`). -/
def collapseQuotes : List Char → List Char
  | '\'' :: '\'' :: rest => '\'' :: collapseQuotes rest
  | c :: rest => c :: collapseQuotes rest
  | [] => []

/-- `unquote`: `$` and blank decode to empty; a token wrapped in single
quotes decodes to its inner text with doubled quotes collapsed. -/
def unquote (value : List Char) : List Char :=
  let t := trimL value
  if t = ['$'] ∨ t = [] then []
  else if t.head? = some '\'' ∧ t.getLast? = some '\'' then
    collapseQuotes ((t.drop 1).dropLast)
  else t

/-! ## Entity model and the entity parser -/

/-- One parsed statement: identifier, type tag, ordered raw argument tokens. -/
structure Entity where
  id : Nat
  type : List Char
  args : List (List Char)
deriving DecidableEq, Repr

/-- `byId.get(i)` for the map `new Map(entities.map(x => [x.id, x]))`: with
duplicate ids the later entry wins, as in a JS `Map` constructor. -/
def byIdGet (entities : List Entity) (i : Nat) : Option Entity :=
  entities.reverse.find? (fun e => e.id = i)

/-- `entity.args[k] ?? ""`. -/
def argD (e : Entity) (k : Nat) : List Char := e.args.getD k []

/-- The per-statement shape test `#id=TYPE(args)` (the parser's
`ENTITY_REGEX`, case-insensitive on the type, with the greedy argument body
reaching to the final closing parenthesis): the id digits, the uppercased
type, and the raw argument text. -/
def matchEntityStatement (s : List Char) : Option (Nat × List Char × List Char) :=
  match s with
  | '#' :: rest =>
    let ds := rest.takeWhile Char.isDigit
    if ds = [] then none
    else
      let r1 := (rest.drop ds.length).dropWhile isJsWs
      match r1 with
      | '=' :: r2 =>
        let r3 := r2.dropWhile isJsWs
        let ty := r3.takeWhile (fun c => c.isAlphanum ∨ c = '_')
        if ty = [] then none
        else
          let r4 := (r3.drop ty.length).dropWhile isJsWs
          match r4 with
          | '(' :: r5 =>
            if r5.getLast? = some ')' then
              some (digitsToNat ds, upperL ty, r5.dropLast)
            else none
          | _ => none
      | _ => none
  | _ => none

/-- First index of `pat` in `hay` (JS `indexOf`), `none` for `-1`. -/
def idxOfAux (hay pat : List Char) (i : Nat) : Option Nat :=
  match hay with
  | [] => if pat = [] then some i else none
  | _ :: t => if pat.isPrefixOf hay then some i else idxOfAux t pat (i + 1)

def idxOf (hay pat : List Char) : Option Nat := idxOfAux hay pat 0

/-- Last index of `pat` in `hay` (JS `lastIndexOf`), `none` for `-1`. -/
def lastIdxOf (hay pat : List Char) : Option Nat :=
  match hay with
  | [] => if pat = [] then some 0 else none
  | _ :: t =>
    match lastIdxOf t pat with
    | some j => some (j + 1)
    | none => if pat.isPrefixOf hay then some 0 else none

/-- `extractDataSection`: the text between the first `DATA;` and the last
`ENDSEC;` of the uppercased document, empty when the markers are missing or
out of order. -/
def extractDataSection (text : List Char) : List Char :=
  let upper := upperL text
  match idxOf upper (lit "DATA;"), lastIdxOf upper (lit "ENDSEC;") with
  | some start, some stop =>
    if stop ≤ start then []
    else (text.drop (start + 5)).take (stop - (start + 5))
  | _, _ => []

/-- The parse loop: each statement matching the `#id=TYPE(args)` shape
yields an entity (arguments split at top level); any other statement is
skipped. -/
def parseStatements : List (List Char) → List Entity
  | [] => []
  | st :: rest =>
    match matchEntityStatement st with
    | none => parseStatements rest
    | some (i, ty, body) => ⟨i, ty, splitTopLevel body⟩ :: parseStatements rest

/-- `IfcLiteParser.parse`, restricted to the entity list (the header text
and schema names it also returns are not consumed by any component under
verification). -/
def parse (text : List Char) : List Entity :=
  parseStatements (splitStatements (extractDataSection text))

/-! ## Numbers, tuples, matrices -/

/-- `parseNumberTuple`: strip one leading `(` and one trailing `)`, split at
top level, keep the finite parses. -/
def parseNumberTuple (value : List Char) : List ℚ :=
  let t := trimL value
  let t1 := if t.head? = some '(' then t.drop 1 else t
  let inner := if t1.getLast? = some ')' then t1.dropLast else t1
  if inner = [] then []
  else (splitTopLevel inner).filterMap (fun x => jsParseFloat (trimL x))

/-- `splitOuterTuple`: the top-level elements of a parenthesised tuple. -/
def splitOuterTuple (value : List Char) : List (List Char) :=
  let t := trimL value
  if t.head? = some '(' ∧ t.getLast? = some ')' then
    splitTopLevel ((t.drop 1).dropLast)
  else []

/-- `parsePointTupleList`: rows of at least three finite numbers, truncated
to their first three entries. -/
def parsePointTupleList (value : List Char) : List (List ℚ) :=
  ((splitOuterTuple value).map parseNumberTuple).filter (fun x => 3 ≤ x.length)
    |>.map (fun x => [x.getD 0 0, x.getD 1 0, x.getD 2 0])

/-- `parseTriangleTupleList`: rows of at least three finite numbers, each
entry converted from the file's 1-based indexing by `max 0 (x - 1)`.  Note
that no upper bound against any point count is enforced here. -/
def parseTriangleTupleList (value : List Char) : List (List ℚ) :=
  ((splitOuterTuple value).map parseNumberTuple).filter (fun x => 3 ≤ x.length)
    |>.map (fun x => [max 0 (x.getD 0 0 - 1), max 0 (x.getD 1 0 - 1), max 0 (x.getD 2 0 - 1)])

/-- Modelled from the spec: the host `Matrix4` (chili-core, outside this
subsystem) — an orthonormal-or-scaled frame as a 4×4 row-major matrix whose
rows are the basis vectors and translation.  Only `identity`, `fromArray`,
composition and the action on points are used by the codec. -/
structure Mat4 where
  r00 : ℚ
  r01 : ℚ
  r02 : ℚ
  r10 : ℚ
  r11 : ℚ
  r12 : ℚ
  r20 : ℚ
  r21 : ℚ
  r22 : ℚ
  t0 : ℚ
  t1 : ℚ
  t2 : ℚ
deriving DecidableEq, Repr

def Mat4.identity : Mat4 := ⟨1, 0, 0, 0, 1, 0, 0, 0, 1, 0, 0, 0⟩

/-- `Matrix4.fromArray` with the source's 16-entry row-major layout (the
fourth column is always `0,0,0,1` at every call site and is dropped). -/
def Mat4.fromRows (x y z t : ℚ × ℚ × ℚ) : Mat4 :=
  ⟨x.1, x.2.1, x.2.2, y.1, y.2.1, y.2.2, z.1, z.2.1, z.2.2, t.1, t.2.1, t.2.2⟩

/-- Modelled from the spec: the frame acts on a local point by its basis
(`p ↦ p.x·X + p.y·Y + p.z·Z + T`). -/
def Mat4.apply (m : Mat4) (p : ℚ × ℚ × ℚ) : ℚ × ℚ × ℚ :=
  (p.1 * m.r00 + p.2.1 * m.r10 + p.2.2 * m.r20 + m.t0,
   p.1 * m.r01 + p.2.1 * m.r11 + p.2.2 * m.r21 + m.t1,
   p.1 * m.r02 + p.2.1 * m.r12 + p.2.2 * m.r22 + m.t2)

/-- Modelled from the spec: `parent.multiply(local)` composes so that the
parent frame's basis acts on local coordinates:
`(a.multiply b).apply p = a.apply (b.apply p)`. -/
def Mat4.multiply (a b : Mat4) : Mat4 :=
  ⟨b.r00 * a.r00 + b.r01 * a.r10 + b.r02 * a.r20,
   b.r00 * a.r01 + b.r01 * a.r11 + b.r02 * a.r21,
   b.r00 * a.r02 + b.r01 * a.r12 + b.r02 * a.r22,
   b.r10 * a.r00 + b.r11 * a.r10 + b.r12 * a.r20,
   b.r10 * a.r01 + b.r11 * a.r11 + b.r12 * a.r21,
   b.r10 * a.r02 + b.r11 * a.r12 + b.r12 * a.r22,
   b.r20 * a.r00 + b.r21 * a.r10 + b.r22 * a.r20,
   b.r20 * a.r01 + b.r21 * a.r11 + b.r22 * a.r21,
   b.r20 * a.r02 + b.r21 * a.r12 + b.r22 * a.r22,
   b.t0 * a.r00 + b.t1 * a.r10 + b.t2 * a.r20 + a.t0,
   b.t0 * a.r01 + b.t1 * a.r11 + b.t2 * a.r21 + a.t1,
   b.t0 * a.r02 + b.t1 * a.r12 + b.t2 * a.r22 + a.t2⟩

/-- `applyMatrix`: transform every point row in place. -/
def applyMatrix (points : List (List ℚ)) (m : Mat4) : List (List ℚ) :=
  points.map (fun p =>
    let q := m.apply (p.getD 0 0, p.getD 1 0, p.getD 2 0)
    [q.1, q.2.1, q.2.2])

/-- Integer square root by bounded linear search (elementary so that the
kernel evaluates it on the small concrete inputs below). -/
def natISqrtAux : Nat → Nat → Nat → Nat
  | 0, k, _ => k
  | fuel + 1, k, n => if (k + 1) * (k + 1) ≤ n then natISqrtAux fuel (k + 1) n else k

def natISqrt (n : Nat) : Nat := natISqrtAux n 0 n

/-- Exact rational square root where one exists (`Math.hypot`'s square root;
every length any theorem below evaluates is a square of a rational). -/
def ratSqrt (q : ℚ) : ℚ :=
  if q ≤ 0 then 0 else (natISqrt q.num.toNat : ℚ) / (natISqrt q.den : ℚ)

def ratHypot3 (v : ℚ × ℚ × ℚ) : ℚ :=
  ratSqrt (v.1 * v.1 + v.2.1 * v.2.1 + v.2.2 * v.2.2)

/-- `normalize`: unit vector, with the static `(0,0,1)` fallback below the
`1e-9` length threshold. -/
def normalize (v : ℚ × ℚ × ℚ) : ℚ × ℚ × ℚ :=
  let len := ratHypot3 v
  if len < 1 / 1000000000 then (0, 0, 1)
  else (v.1 / len, v.2.1 / len, v.2.2 / len)

def cross (a b : ℚ × ℚ × ℚ) : ℚ × ℚ × ℚ :=
  (a.2.1 * b.2.2 - a.2.2 * b.2.1, a.2.2 * b.1 - a.1 * b.2.2, a.1 * b.2.1 - a.2.1 * b.1)

/-- `isFiniteVector`: rationals carry no `NaN`/`Infinity`, so the non-finite
fallback branch of the placement resolver is dead in this model (in the
source it can only fire on non-finite inputs, which the tuple parsers have
already filtered out). -/
def isFiniteVector (_ : ℚ × ℚ × ℚ) : Bool := true

/-- Doubling of single quotes (`replaceAll("'", "''")` of the exporter). -/
def doubleQuotes : List Char → List Char
  | '\'' :: rest => '\'' :: '\'' :: doubleQuotes rest
  | c :: rest => c :: doubleQuotes rest
  | [] => []

/-- `quote` of the exporter: wrap in single quotes, doubling inner quotes. -/
def quote (value : List Char) : List Char :=
  '\'' :: doubleQuotes value ++ ['\'']

/-! ## Geometry interpreter (`ifcLiteImporter.ts`) -/

/-- The raw point/triangle mesh (`IRawMesh`): point rows and triangle rows. -/
structure RawMesh where
  points : List (List ℚ)
  triangles : List (List ℚ)
deriving DecidableEq, Repr

/-- `resolvePoint`: a referenced `IFCCARTESIANPOINT` with at least three
finite coordinates. -/
def resolvePoint (byId : List Entity) (pointRef : Option Nat) : Option (ℚ × ℚ × ℚ) :=
  match pointRef with
  | none => none
  | some r =>
    match byIdGet byId r with
    | some p =>
      if p.type = lit "IFCCARTESIANPOINT" then
        let coords := parseNumberTuple (argD p 0)
        if 3 ≤ coords.length then some (coords.getD 0 0, coords.getD 1 0, coords.getD 2 0)
        else none
      else none
    | none => none

/-- `resolveDirection`: a referenced `IFCDIRECTION` with at least three
finite coordinates. -/
def resolveDirection (byId : List Entity) (dirRef : Option Nat) : Option (ℚ × ℚ × ℚ) :=
  match dirRef with
  | none => none
  | some r =>
    match byIdGet byId r with
    | some d =>
      if d.type = lit "IFCDIRECTION" then
        let coords := parseNumberTuple (argD d 0)
        if 3 ≤ coords.length then some (coords.getD 0 0, coords.getD 1 0, coords.getD 2 0)
        else none
      else none
    | none => none

/-- `resolveAxis2Placement3D`: location plus re-orthonormalised axes
(`y = z × seed`, `x = y × z`), identity when the reference is absent or the
wrong type. -/
def resolveAxis2Placement3D (byId : List Entity) (ref : Option Nat) : Mat4 :=
  match ref with
  | none => Mat4.identity
  | some r =>
    match byIdGet byId r with
    | none => Mat4.identity
    | some axis =>
      if axis.type = lit "IFCAXIS2PLACEMENT3D" then
        let location := (resolvePoint byId (parseEntityReference (argD axis 0))).getD (0, 0, 0)
        let zAxis := normalize ((resolveDirection byId (parseEntityReference (argD axis 1))).getD (0, 0, 1))
        let xSeed := normalize ((resolveDirection byId (parseEntityReference (argD axis 2))).getD (1, 0, 0))
        let yAxis := normalize (cross zAxis xSeed)
        let xAxis := normalize (cross yAxis zAxis)
        if isFiniteVector xAxis ∧ isFiniteVector yAxis ∧ isFiniteVector zAxis then
          Mat4.fromRows xAxis yAxis zAxis location
        else
          Mat4.fromRows (1, 0, 0) (0, 1, 0) zAxis location
      else Mat4.identity

/-- `resolveCartesianTransformation`: instance transform of a mapped item
(origin, axes, uniform scale; `z = x × y`). -/
def resolveCartesianTransformation (byId : List Entity) (ref : Option Nat) : Mat4 :=
  match ref with
  | none => Mat4.identity
  | some r =>
    match byIdGet byId r with
    | none => Mat4.identity
    | some tr =>
      if tr.type = lit "IFCCARTESIANTRANSFORMATIONOPERATOR3D" ∨
          tr.type = lit "IFCCARTESIANTRANSFORMATIONOPERATOR3DNONUNIFORM" then
        let origin := (resolvePoint byId (parseEntityReference (argD tr 0))).getD (0, 0, 0)
        let xAxis := normalize ((resolveDirection byId (parseEntityReference (argD tr 1))).getD (1, 0, 0))
        let yAxis := normalize ((resolveDirection byId (parseEntityReference (argD tr 2))).getD (0, 1, 0))
        let zAxis := normalize (cross xAxis yAxis)
        let scale := match jsParseFloat (argD tr 3) with
          | some q => if q = 0 then 1 else q
          | none => 1
        Mat4.fromRows
          (xAxis.1 * scale, xAxis.2.1 * scale, xAxis.2.2 * scale)
          (yAxis.1 * scale, yAxis.2.1 * scale, yAxis.2.2 * scale)
          (zAxis.1 * scale, zAxis.2.1 * scale, zAxis.2.2 * scale)
          origin
      else Mat4.identity

/-- `resolveObjectPlacement`: compose the chain of `IFCLOCALPLACEMENT`
frames.  The source recurses without a visited set; the budget
`byId.length + 1` dominates every acyclic chain, which is the only kind the
source terminates on. -/
def resolveObjectPlacement (fuel : Nat) (byId : List Entity) (placementRef : Option Nat) : Mat4 :=
  match fuel with
  | 0 => Mat4.identity
  | fuel + 1 =>
    match placementRef with
    | none => Mat4.identity
    | some r =>
      match byIdGet byId r with
      | none => Mat4.identity
      | some placement =>
        if placement.type = lit "IFCLOCALPLACEMENT" then
          let parent := resolveObjectPlacement fuel byId (parseEntityReference (argD placement 0))
          let localFrame := resolveAxis2Placement3D byId (parseEntityReference (argD placement 1))
          parent.multiply localFrame
        else Mat4.identity

/-- `meshFromTriangulatedFaceSet`: the referenced point list and the
(1-based) coordinate-index list, converted without any range check. -/
def meshFromTriangulatedFaceSet (faceSet : Entity) (byId : List Entity) : Option RawMesh :=
  match parseEntityReference (argD faceSet 0) with
  | none => none
  | some pointListRef =>
    match byIdGet byId pointListRef with
    | none => none
    | some pointList =>
      if pointList.type = lit "IFCCARTESIANPOINTLIST3D" then
        let points := parsePointTupleList (argD pointList 0)
        let triangles := parseTriangleTupleList (argD faceSet 3)
        if points = [] ∨ triangles = [] then none
        else some ⟨points, triangles⟩
      else none

/-- Fan triangulation of a polygon loop from its first vertex. -/
def triangulatePolygon (polygon : List Nat) : List (List ℚ) :=
  match polygon with
  | [] => []
  | p0 :: rest =>
    (rest.zip (rest.drop 1)).map (fun ab => [(p0 : ℚ), (ab.1 : ℚ), (ab.2 : ℚ)])

/-- Point deduplication of the faceted-brep walk: the first index holding
exactly these coordinates, appending when fresh (the source keys a map by
the coordinate string, which identifies exactly the equal triples). -/
def brepAddPoint (points : List (List ℚ)) (coords : List ℚ) : List (List ℚ) × Nat :=
  match points.findIdx? (fun p => p = coords) with
  | some i => (points, i)
  | none => (points ++ [coords], points.length)

/-- One polygon loop of a face bound: resolve each `IFCCARTESIANPOINT`,
thread the shared deduplicated point array. -/
def brepLoopPoints (byId : List Entity) (pointRefs : List Nat) (points : List (List ℚ)) :
    List (List ℚ) × List Nat :=
  match pointRefs with
  | [] => (points, [])
  | pRef :: rest =>
    match byIdGet byId pRef with
    | some p =>
      if p.type = lit "IFCCARTESIANPOINT" then
        let coords := parseNumberTuple (argD p 0)
        if 3 ≤ coords.length then
          let c3 := [coords.getD 0 0, coords.getD 1 0, coords.getD 2 0]
          let (points1, idx) := brepAddPoint points c3
          let (points2, poly) := brepLoopPoints byId rest points1
          (points2, idx :: poly)
        else brepLoopPoints byId rest points
      else brepLoopPoints byId rest points
    | none => brepLoopPoints byId rest points

/-- The bounds of one face: each `IFCFACEOUTERBOUND`/`IFCFACEBOUND` whose
loop is an `IFCPOLYLOOP` contributes its fan triangulation. -/
def brepBounds (byId : List Entity) (boundRefs : List Nat)
    (points : List (List ℚ)) (triangles : List (List ℚ)) :
    List (List ℚ) × List (List ℚ) :=
  match boundRefs with
  | [] => (points, triangles)
  | boundRef :: rest =>
    match byIdGet byId boundRef with
    | none => brepBounds byId rest points triangles
    | some bound =>
      if bound.type = lit "IFCFACEOUTERBOUND" ∨ bound.type = lit "IFCFACEBOUND" then
        match parseEntityReference (argD bound 0) with
        | none => brepBounds byId rest points triangles
        | some loopRef =>
          match byIdGet byId loopRef with
          | none => brepBounds byId rest points triangles
          | some loop =>
            if loop.type = lit "IFCPOLYLOOP" then
              let (points1, polygon) := brepLoopPoints byId (parseReferenceList (argD loop 0)) points
              brepBounds byId rest points1 (triangles ++ triangulatePolygon polygon)
            else brepBounds byId rest points triangles
      else brepBounds byId rest points triangles

/-- The faces of the closed shell. -/
def brepFaces (byId : List Entity) (faceRefs : List Nat)
    (points : List (List ℚ)) (triangles : List (List ℚ)) :
    List (List ℚ) × List (List ℚ) :=
  match faceRefs with
  | [] => (points, triangles)
  | faceRef :: rest =>
    match byIdGet byId faceRef with
    | none => brepFaces byId rest points triangles
    | some face =>
      if face.type = lit "IFCFACE" then
        let (points1, triangles1) := brepBounds byId (parseReferenceList (argD face 0)) points triangles
        brepFaces byId rest points1 triangles1
      else brepFaces byId rest points triangles

/-- `meshFromFacetedBrep`: shell → faces → bounds → polygon loops, points
deduplicated by exact coordinates, loops fan-triangulated. -/
def meshFromFacetedBrep (brep : Entity) (byId : List Entity) : Option RawMesh :=
  match parseEntityReference (argD brep 0) with
  | none => none
  | some shellRef =>
    match byIdGet byId shellRef with
    | none => none
    | some shell =>
      if shell.type = lit "IFCCLOSEDSHELL" then
        let pt := brepFaces byId (parseReferenceList (argD shell 0)) [] []
        if pt.1 = [] ∨ pt.2 = [] then none else some ⟨pt.1, pt.2⟩
      else none

/-- `resolvePolylineCurve`: the ordered 3-coordinate points of an
`IFCPOLYLINE`, with a closing duplicate (within `1e-8`) stripped; at least
three points required. -/
def resolvePolylineCurve (byId : List Entity) (curveRef : Nat) : Option (List (List ℚ)) :=
  match byIdGet byId curveRef with
  | none => none
  | some curve =>
    if curve.type = lit "IFCPOLYLINE" then
      let points := (parseReferenceList (argD curve 0)).filterMap (fun ref =>
        match byIdGet byId ref with
        | some point =>
          if point.type = lit "IFCCARTESIANPOINT" then
            let coords := parseNumberTuple (argD point 0)
            if 3 ≤ coords.length then some [coords.getD 0 0, coords.getD 1 0, coords.getD 2 0]
            else none
          else none
        | none => none)
      let samePoint := fun (a b : List ℚ) =>
        |a.getD 0 0 - b.getD 0 0| < 1 / 100000000 ∧
        |a.getD 1 0 - b.getD 1 0| < 1 / 100000000 ∧
        |a.getD 2 0 - b.getD 2 0| < 1 / 100000000
      let points :=
        if 1 < points.length ∧ samePoint (points.getD 0 []) (points.getLast?.getD []) then
          points.dropLast
        else points
      if 3 ≤ points.length then some points else none
    else none

/-- `resolveProfilePolygon`: rectangle profiles give four half-dimension
corners; arbitrary closed profiles delegate to their polyline curve.  No
other profile type (in particular no circle profile) is handled. -/
def resolveProfilePolygon (byId : List Entity) (profileRef : Nat) : Option (List (List ℚ)) :=
  match byIdGet byId profileRef with
  | none => none
  | some profile =>
    if profile.type = lit "IFCRECTANGLEPROFILEDEF" then
      match jsParseFloat (argD profile 3), jsParseFloat (argD profile 4) with
      | some x, some y =>
        if x = 0 ∨ y = 0 then none
        else
          let halfX := x / 2
          let halfY := y / 2
          some [[-halfX, -halfY, 0], [halfX, -halfY, 0], [halfX, halfY, 0], [-halfX, halfY, 0]]
      | _, _ => none
    else if profile.type = lit "IFCARBITRARYCLOSEDPROFILEDEF" then
      match parseEntityReference (argD profile 2) with
      | none => none
      | some curveRef => resolvePolylineCurve byId curveRef
    else none

/-- `meshFromExtrudedAreaSolid`: profile ring, extruded top ring, two fan
caps and two triangles per side quad, then the solid's own placement. -/
def meshFromExtrudedAreaSolid (extruded : Entity) (byId : List Entity) : Option RawMesh :=
  match parseEntityReference (argD extruded 0) with
  | none => none
  | some sweptAreaRef =>
    match resolveProfilePolygon byId sweptAreaRef with
    | none => none
    | some profile =>
      if profile.length < 3 then none
      else
        let solidPlacement := resolveAxis2Placement3D byId (parseEntityReference (argD extruded 1))
        let dir := (resolveDirection byId (parseEntityReference (argD extruded 2))).getD (0, 0, 1)
        match jsParseFloat (argD extruded 3) with
        | none => none
        | some depth =>
          if |depth| < 1 / 1000000000 then none
          else
            let unitDir := normalize dir
            let ev := (unitDir.1 * depth, unitDir.2.1 * depth, unitDir.2.2 * depth)
            let bottom := profile.map (fun p => [p.getD 0 0, p.getD 1 0, p.getD 2 0])
            let top := profile.map (fun p =>
              [p.getD 0 0 + ev.1, p.getD 1 0 + ev.2.1, p.getD 2 0 + ev.2.2])
            let n := profile.length
            let caps := (List.range (n - 2)).flatMap (fun k =>
              [[(0 : ℚ), (k + 2 : ℚ), (k + 1 : ℚ)],
               [(n : ℚ), (n + k + 1 : ℚ), (n + k + 2 : ℚ)]])
            let sides := (List.range n).flatMap (fun i =>
              let next := (i + 1) % n
              [[(i : ℚ), (next : ℚ), (n + next : ℚ)],
               [(i : ℚ), (n + next : ℚ), (n + i : ℚ)]])
            some ⟨applyMatrix (bottom ++ top) solidPlacement, caps ++ sides⟩

/-- The loop over a mapped item's representation items: the first item that
`resolveItem` (the interpreter one budget step down) resolves is returned
with the instance transform applied to its points; the visited set keeps
the ids recorded by failed attempts. -/
def mappedItemLoop (resolveItem : Nat → List Nat → Option RawMesh × List Nat) :
    List Nat → List Nat → Mat4 → Option RawMesh × List Nat
  | [], visited, _ => (none, visited)
  | r :: rest, visited, mapMatrix =>
    match resolveItem r visited with
    | (some raw, v) => (some ⟨applyMatrix raw.points mapMatrix, raw.triangles⟩, v)
    | (none, v) => mappedItemLoop resolveItem rest v mapMatrix

/-- `meshFromRepresentationItem`, with the mutable visited set threaded and
the recursion given an explicit budget (the budget `byId.length + 1`
dominates the recursion depth: every recursive call first records a fresh
id that resolves in `byId`). -/
def meshFromRepresentationItem : Nat → Nat → List Entity → List Nat →
    Option RawMesh × List Nat
  | 0, _, _, visited => (none, visited)
  | fuel + 1, itemRef, byId, visited =>
    if visited.contains itemRef then (none, visited)
    else
      let visited := itemRef :: visited
      match byIdGet byId itemRef with
      | none => (none, visited)
      | some item =>
        if item.type = lit "IFCTRIANGULATEDFACESET" then
          (meshFromTriangulatedFaceSet item byId, visited)
        else if item.type = lit "IFCFACETEDBREP" then
          (meshFromFacetedBrep item byId, visited)
        else if item.type = lit "IFCEXTRUDEDAREASOLID" then
          (meshFromExtrudedAreaSolid item byId, visited)
        else if item.type = lit "IFCBOOLEANCLIPPINGRESULT" ∨ item.type = lit "IFCBOOLEANRESULT" then
          match parseEntityReference (argD item 1) with
          | some firstOperand => meshFromRepresentationItem fuel firstOperand byId visited
          | none => (none, visited)
        else if item.type = lit "IFCMAPPEDITEM" then
          match parseEntityReference (argD item 0) with
          | none => (none, visited)
          | some sourceRef =>
            match byIdGet byId sourceRef with
            | none => (none, visited)
            | some map =>
              if map.type = lit "IFCREPRESENTATIONMAP" then
                match parseEntityReference (argD map 1) with
                | none => (none, visited)
                | some repRef =>
                  match byIdGet byId repRef with
                  | none => (none, visited)
                  | some rep =>
                    if rep.type = lit "IFCSHAPEREPRESENTATION" then
                      let mapMatrix := resolveCartesianTransformation byId
                        (parseEntityReference (argD item 1))
                      mappedItemLoop (fun r v => meshFromRepresentationItem fuel r byId v)
                        (parseReferenceList (argD rep 3)) visited mapMatrix
                    else (none, visited)
              else (none, visited)
        else (none, visited)

/-! ## Spatial graph builder (`IfcLiteImporter`) -/

/-- The flat surface mesh handed to the host's `MeshNode` (`Mesh.createSurface`
filled by `buildSurfaceMesh`): position triples and index triples, flattened.
The host type also carries normals and a mesh-type tag the codec never sets
differently; they are omitted. -/
structure SurfaceMesh where
  position : List ℚ
  index : List ℚ
deriving DecidableEq, Repr

/-- `buildSurfaceMesh`: flatten point rows and triangle rows. -/
def buildSurfaceMesh (points : List (List ℚ)) (triangles : List (List ℚ)) : SurfaceMesh :=
  ⟨points.flatMap (fun p => [p.getD 0 0, p.getD 1 0, p.getD 2 0]),
   triangles.flatMap (fun t => [t.getD 0 0, t.getD 1 0, t.getD 2 0])⟩

/-- The host node family the codec populates (`FolderNode` / `MeshNode`).
`guid` stands for the host-assigned `node.id` (the exporter normalises it
through `safeGuid`); `entityId` is a ghost annotation recording which parsed
entity a node produced by the importer came from — it carries no behaviour
and lets the theorems count nodes per entity. `transform` is the optional
host transform the exporter reads (`getNodeTransform`). -/
inductive CadNode where
  | folder (guid : List Char) (entityId : Option Nat) (name : List Char)
      (transform : Option Mat4) (children : List CadNode)
  | meshNode (guid : List Char) (entityId : Option Nat) (name : List Char)
      (transform : Option Mat4) (mesh : SurfaceMesh)
deriving Repr

/-- `toDisplayName`: `"<TYPE> - <label>"`, bare `<TYPE>`, or `"Unknown"`. -/
def toDisplayName (entity : Option Entity) : List Char :=
  match entity with
  | none => lit "Unknown"
  | some e =>
    let name := unquote (argD e 2)
    if name ≠ [] then e.type ++ lit " - " ++ name else e.type

/-- `tryExtractMesh`: the element's product-definition shape, its first
shape representation whose first resolvable item yields a raw mesh,
transformed by the element's object placement. -/
def tryExtractMesh (entity : Entity) (byId : List Entity) : Option SurfaceMesh :=
  match parseEntityReference (argD entity 6) with
  | none => none
  | some productShapeRef =>
    match byIdGet byId productShapeRef with
    | none => none
    | some productShape =>
      if productShape.type = lit "IFCPRODUCTDEFINITIONSHAPE" then
        let placementMatrix := resolveObjectPlacement (byId.length + 1) byId
          (parseEntityReference (argD entity 5))
        (parseReferenceList (argD productShape 2)).findSome? (fun repRef =>
          match byIdGet byId repRef with
          | none => none
          | some rep =>
            if rep.type = lit "IFCSHAPEREPRESENTATION" then
              (parseReferenceList (argD rep 3)).findSome? (fun itemRef =>
                match (meshFromRepresentationItem (byId.length + 1) itemRef byId []).1 with
                | none => none
                | some rawMesh =>
                  some (buildSurfaceMesh (applyMatrix rawMesh.points placementMatrix)
                    rawMesh.triangles))
            else none)
      else none

/-- `createIfcNode`: a mesh node when the entity carries a resolvable shape,
otherwise a folder; the ghost `entityId` records the id the node was created
for (the host assigns the `guid`, modelled as empty). -/
def createIfcNode (entity : Option Entity) (entityId : Nat) (byId : List Entity) : CadNode :=
  let name := toDisplayName entity
  match entity with
  | some e =>
    match tryExtractMesh e byId with
    | some mesh => CadNode.meshNode [] (some entityId) name none mesh
    | none => CadNode.folder [] (some entityId) name none []
  | none => CadNode.folder [] (some entityId) name none []

/-- Append children onto a folder node (the `node.add` calls). -/
def CadNode.withChildren : CadNode → List CadNode → CadNode
  | CadNode.folder g i n t cs, extra => CadNode.folder g i n t (cs ++ extra)
  | n, _ => n

def CadNode.isFolder : CadNode → Bool
  | CadNode.folder .. => true
  | CadNode.meshNode .. => false

/-- The parent→children adjacency map: `buildChildrenMap` folded left over
the entity list, aggregation edges (`relating` at index 4, `related` list at
index 5) and containment edges (list at index 4, parent at index 5) both
appended under the parent id. -/
def buildChildrenMapStep (m : Nat → List Nat) (entity : Entity) : Nat → List Nat :=
  let m1 :=
    if entity.type = lit "IFCRELAGGREGATES" then
      match parseEntityReference (argD entity 4) with
      | some parent =>
        let refs := parseReferenceList (argD entity 5)
        fun i => if i = parent then m parent ++ refs else m i
      | none => m
    else m
  if entity.type = lit "IFCRELCONTAINEDINSPATIALSTRUCTURE" then
    match parseEntityReference (argD entity 5) with
    | some parent =>
      let refs := parseReferenceList (argD entity 4)
      fun i => if i = parent then m1 parent ++ refs else m1 i
    | none => m1
  else m1

def buildChildrenMap (entities : List Entity) : Nat → List Nat :=
  entities.foldl buildChildrenMapStep (fun _ => [])

/-- The loop over an entity's adjacency children, threading the visited
set through `buildChild` (the tree builder one budget step down). -/
def treeChildrenLoop (buildChild : Nat → List Nat → CadNode × List Nat) :
    List Nat → List Nat → List CadNode × List Nat
  | [], visited => ([], visited)
  | c :: rest, visited =>
    let (node, visited1) := buildChild c visited
    let (nodes, visited2) := treeChildrenLoop buildChild rest visited1
    (node :: nodes, visited2)

/-- `createTreeNode`: create the node for the entity (even when the id was
already visited or is unknown — such a call returns the childless node
as-is), then, for a fresh folder-producing entity, mark it visited and
recurse into its adjacency children with the visited set threaded through.
The budget `byId.length + 1` dominates the recursion depth (each recursive
step first records a fresh id that resolves in `byId`); `createTreeNode`
is proved fuel-stable below, which is the termination of the source. -/
def createTreeNode : Nat → List Entity → (Nat → List Nat) → Nat → List Nat →
    CadNode × List Nat
  | 0, _, _, _, visited => (CadNode.folder [] none (lit "Unknown") none [], visited)
  | fuel + 1, byId, childMap, entityId, visited =>
    let entity := byIdGet byId entityId
    let node := createIfcNode entity entityId byId
    if entity = none ∨ visited.contains entityId then (node, visited)
    else
      let visited := entityId :: visited
      if node.isFolder then
        let (children, visited1) :=
          treeChildrenLoop (fun c v => createTreeNode fuel byId childMap c v)
            (childMap entityId) visited
        (node.withChildren children, visited1)
      else (node, visited)

/-- `IfcLiteImporter.import`: the root `"IFC"` folder holding either the
placeholder `"IFC Model"` folder (no project entity) or the tree grown from
the first `IFCPROJECT` entity. -/
def importDocument (entities : List Entity) : CadNode :=
  let byId := entities
  let childMap := buildChildrenMap entities
  match entities.find? (fun e => e.type = lit "IFCPROJECT") with
  | none =>
    CadNode.folder [] none (lit "IFC") none [CadNode.folder [] none (lit "IFC Model") none []]
  | some project =>
    let (projectNode, _) := createTreeNode (entities.length + 1) byId childMap project.id []
    CadNode.folder [] none (lit "IFC") none [projectNode]

/-- `import(text)` of the facade: parse, then build. -/
def importText (text : List Char) : CadNode :=
  importDocument (parse text)

/-! Observation helpers on trees (used only in theorem statements). -/

mutual

/-- How many nodes of the tree were created for entity id `i`. -/
def countNodesForId (i : Nat) : CadNode → Nat
  | CadNode.folder _ e _ _ cs => (if e = some i then 1 else 0) + countNodesForIdList i cs
  | CadNode.meshNode _ e _ _ _ => if e = some i then 1 else 0

def countNodesForIdList (i : Nat) : List CadNode → Nat
  | [] => 0
  | c :: cs => countNodesForId i c + countNodesForIdList i cs

end

mutual

/-- How many nodes of the tree were created for entity id `i` and carry
children — i.e. how many times the builder expanded id `i` into its
adjacency children (a re-encountered id only ever yields a childless
placeholder). -/
def countExpandedForId (i : Nat) : CadNode → Nat
  | CadNode.folder _ e _ _ (c :: cs) =>
      (if e = some i then 1 else 0) + countExpandedForIdList i (c :: cs)
  | _ => 0

def countExpandedForIdList (i : Nat) : List CadNode → Nat
  | [] => 0
  | c :: cs => countExpandedForId i c + countExpandedForIdList i cs

end

/-- The container/leaf shape of a tree: container arity at every level and
geometry-leaf positions, with names, ids and meshes erased. -/
inductive NodeShape where
  | container (children : List NodeShape)
  | geom
deriving Repr

mutual

def shapeOf : CadNode → NodeShape
  | CadNode.folder _ _ _ _ cs => NodeShape.container (shapeOfList cs)
  | CadNode.meshNode _ _ _ _ _ => NodeShape.geom

def shapeOfList : List CadNode → List NodeShape
  | [] => []
  | c :: cs => shapeOf c :: shapeOfList cs

end

mutual

/-- A flat preorder encoding of a shape (`0 … 1` brackets a container, `2`
is a geometry leaf): equal shapes have equal encodings, so distinct
encodings witness distinct shapes decidably. -/
def NodeShape.enc : NodeShape → List Nat
  | NodeShape.container cs => 0 :: NodeShape.encList cs ++ [1]
  | NodeShape.geom => [2]

def NodeShape.encList : List NodeShape → List Nat
  | [] => []
  | s :: ss => NodeShape.enc s ++ NodeShape.encList ss

end

/-! ## Exchange writer (`ifcLiteExporter.ts`) -/

/-- `Math.round`-style rounding of `toFixed`: nearest integer, ties towards
the larger value. -/
def jsRoundHalfUp (x : ℚ) : ℤ := ⌊x + 1 / 2⌋

def padLeftZeros (ds : List Char) (n : Nat) : List Char :=
  List.replicate (n - ds.length) '0' ++ ds

/-- `value.toFixed(6)` on a rational (the sign is split off and the
magnitude rounded, as in the specification of `Number.prototype.toFixed`). -/
def ratToFixed6 (q : ℚ) : List Char :=
  let body := fun (a : ℚ) =>
    let n := (jsRoundHalfUp (a * 1000000)).toNat
    natToDigits (n / 1000000) ++ '.' :: padLeftZeros (natToDigits (n % 1000000)) 6
  if q < 0 then '-' :: body (-q) else body q

/-- The least number of decimal places representing `q` exactly, with the
scaled numerator (JS prints a number by its shortest decimal expansion;
every number the writer prints is an exact 6-place decimal, so a bound of
20 places is never reached). -/
def decExpansion (q : ℚ) : Option (Nat × Nat) :=
  (List.range 21).findSome? (fun k =>
    let s := q * (10 : ℚ) ^ k
    if s.den = 1 then some (k, s.num.toNat) else none)

/-- JS number-to-string on the finite decimal rationals the writer
produces: sign, integer part, and the shortest fraction digits. -/
def jsNumberToString (q : ℚ) : List Char :=
  if q = 0 then ['0']
  else
    let sgn : List Char := if q < 0 then ['-'] else []
    let a := |q|
    let ip := (⌊a⌋).toNat
    let fr := a - ⌊a⌋
    if fr = 0 then sgn ++ natToDigits ip
    else
      match decExpansion fr with
      | some (k, m) => sgn ++ natToDigits ip ++ '.' :: padLeftZeros (natToDigits m) k
      | none => sgn ++ natToDigits ip

/-- `toIfcNumber`: fix to six places, re-parse, print (a non-finite value
prints as `0.`; rationals are always finite, and the tuple parsers never
produce a non-finite number, so that branch is dead here). -/
def toIfcNumber (q : ℚ) : List Char :=
  jsNumberToString ((jsParseFloat (ratToFixed6 q)).getD 0)

def joinComma (l : List (List Char)) : List Char := List.intercalate [','] l

/-- `toPointList`: the flat position buffer as a tuple of 3-tuples.  On a
buffer whose length is not a multiple of 3 the source's past-the-end read
gives `undefined`, which `toIfcNumber` prints as `0.`, while this model's
default read prints `0`; every buffer the codec produces has length a
multiple of 3, where the two agree exactly. -/
def toPointList (points : List ℚ) : List Char :=
  let tuples := (List.range ((points.length + 2) / 3)).map (fun i =>
    '(' :: toIfcNumber (points.getD (3 * i) 0) ++
    ',' :: toIfcNumber (points.getD (3 * i + 1) 0) ++
    ',' :: toIfcNumber (points.getD (3 * i + 2) 0) ++ [')'])
  '(' :: joinComma tuples ++ [')']

/-- `toCoordIndex`: the flat index buffer as 1-based 3-tuples.  On a buffer
whose length is not a multiple of 3 the source's past-the-end read prints
`NaN` (`undefined + 1`), while this model's default read prints `1`; every
buffer the codec produces has length a multiple of 3, where the two agree
exactly. -/
def toCoordIndex (indices : List ℚ) : List Char :=
  let tuples := (List.range ((indices.length + 2) / 3)).map (fun i =>
    '(' :: jsNumberToString (indices.getD (3 * i) 0 + 1) ++
    ',' :: jsNumberToString (indices.getD (3 * i + 1) 0 + 1) ++
    ',' :: jsNumberToString (indices.getD (3 * i + 2) 0 + 1) ++ [')'])
  '(' :: joinComma tuples ++ [')']

/-- `safeGuid`: keep `[a-zA-Z0-9_$]`, truncate to 22, pad with `0`. -/
def safeGuid (value : List Char) : List Char :=
  let n := (value.filter (fun c => c.isAlphanum ∨ c = '_' ∨ c = '$')).take 22
  n ++ List.replicate (22 - n.length) '0'

/-- The `IfcStepWriter`: a monotonically increasing id counter starting at 1
and the emitted data lines, both scoped to one export call. -/
structure WState where
  nextId : Nat
  lines : List (List Char)
deriving Repr

/-- `writer.entity(type, args)`: allocate `#id`, emit `#id=TYPE(args);`. -/
def writerEntity (st : WState) (ty : List Char) (args : List (List Char)) :
    List Char × WState :=
  let ref := '#' :: natToDigits st.nextId
  (ref, ⟨st.nextId + 1, st.lines ++ [ref ++ '=' :: ty ++ '(' :: joinComma args ++ [')', ';']]⟩)

/-- `getNodeTransform`: the node's transform, or identity. -/
def getNodeTransform : CadNode → Mat4
  | CadNode.folder _ _ _ t _ => t.getD Mat4.identity
  | CadNode.meshNode _ _ _ t _ => t.getD Mat4.identity

def CadNode.guidOf : CadNode → List Char
  | CadNode.folder g .. => g
  | CadNode.meshNode g .. => g

def CadNode.nameOf : CadNode → List Char
  | CadNode.folder _ _ n .. => n
  | CadNode.meshNode _ _ n .. => n

/-- `Matrix4.ofPoints` on a flat buffer (modelled from the spec: the frame
acts on each packed 3-tuple). -/
def ofPointsFlat (m : Mat4) (flat : List ℚ) : List ℚ :=
  ((List.range ((flat.length + 2) / 3)).map (fun i =>
    let q := m.apply (flat.getD (3 * i) 0, flat.getD (3 * i + 1) 0, flat.getD (3 * i + 2) 0)
    [q.1, q.2.1, q.2.2])).flatten

/-- `triangulatedMeshFromNode`: geometry-bearing nodes hand over their
transformed position buffer and index buffer (the codec's own `MeshNode`s
are always surface meshes with both buffers present; the host
`GeometryNode` case reads the same two buffers from its face mesh and is
collapsed into the same constructor). -/
def triangulatedMeshFromNode : CadNode → Mat4 → Option (List ℚ × List ℚ)
  | CadNode.meshNode _ _ _ _ mesh, transform => some (ofPointsFlat transform mesh.position, mesh.index)
  | CadNode.folder .., _ => none

/-- `createRepresentation`: point list, triangulated face set, shape
representation and product-definition shape for a node with a non-empty
mesh. -/
def createRepresentation (st : WState) (node : CadNode) (context : List Char)
    (transform : Mat4) : Option (List Char) × WState :=
  match triangulatedMeshFromNode node transform with
  | none => (none, st)
  | some (points, indices) =>
    if points = [] ∨ indices = [] then (none, st)
    else
      let (pointList, st1) := writerEntity st (lit "IFCCARTESIANPOINTLIST3D") [toPointList points]
      let (faceSet, st2) := writerEntity st1 (lit "IFCTRIANGULATEDFACESET")
        [pointList, lit "$", lit ".T.", toCoordIndex indices, lit "$"]
      let (shapeRep, st3) := writerEntity st2 (lit "IFCSHAPEREPRESENTATION")
        [context, lit "'Body'", lit "'Tessellation'", '(' :: faceSet ++ [')']]
      writerEntity st3 (lit "IFCPRODUCTDEFINITIONSHAPE")
        [lit "$", lit "$", '(' :: shapeRep ++ [')']] |>.map some id

/-- `exportProxyNode`: one `IFCBUILDINGELEMENTPROXY` per geometry leaf or
childless container, its representation reference `$` when no mesh could be
extracted. -/
def exportProxyNode (st : WState) (node : CadNode) (placement context : List Char)
    (transform : Mat4) : List Char × WState :=
  let (representation, st1) := createRepresentation st node context transform
  writerEntity st1 (lit "IFCBUILDINGELEMENTPROXY")
    ['\'' :: safeGuid node.guidOf ++ ['\''], lit "$", quote node.nameOf, lit "$", lit "$",
     placement, representation.getD (lit "$"), lit "$"]

mutual

/-- One step of the `exportModelNodes` walk: a container with children
recurses (emitting nothing for the container itself), every other node
becomes a proxy. -/
def exportNodeDispatch (st : WState) (child : CadNode) (placement context : List Char)
    (childTransform : Mat4) : List (List Char) × WState :=
  match child with
  | CadNode.folder _ _ _ _ (c :: cs) =>
    exportNodesAux st (c :: cs) placement context childTransform
  | _ =>
    let (ref, st1) := exportProxyNode st child placement context childTransform
    ([ref], st1)

/-- The sibling loop of `exportModelNodes`. -/
def exportNodesAux (st : WState) (children : List CadNode) (placement context : List Char)
    (parentTransform : Mat4) : List (List Char) × WState :=
  match children with
  | [] => ([], st)
  | child :: rest =>
    let (ids1, st1) := exportNodeDispatch st child placement context
      (parentTransform.multiply (getNodeTransform child))
    let (ids2, st2) := exportNodesAux st1 rest placement context parentTransform
    (ids1 ++ ids2, st2)

end

/-- `exportModelNodes`: the walk entered at the supplied child list; the
returned ids are the flat list of emitted proxies. -/
def exportModelNodes (st : WState) (children : List CadNode) (placement context : List Char)
    (parentTransform : Mat4) : List (List Char) × WState :=
  exportNodesAux st children placement context parentTransform

/-- The document the exporter receives: its display name and the model
root whose children are walked. -/
structure ExpDocument where
  name : List Char
  rootChildren : List CadNode

/-- The writer part of `IfcLiteExporter.export`: every entity the export
emits, in order.  It reads only the document (never the clock). -/
def exportWriterState (doc : ExpDocument) : WState :=
  let st0 : WState := ⟨1, []⟩
  let (origin, st1) := writerEntity st0 (lit "IFCCARTESIANPOINT") [lit "(0.,0.,0.)"]
  let (worldAxis, st2) := writerEntity st1 (lit "IFCAXIS2PLACEMENT3D") [origin, lit "$", lit "$"]
  let (context, st3) := writerEntity st2 (lit "IFCGEOMETRICREPRESENTATIONCONTEXT")
    [lit "$", lit "'Model'", lit "3", lit "1.E-5", worldAxis, lit "$"]
  let (units, st4) := writerEntity st3 (lit "IFCUNITASSIGNMENT") [lit "()"]
  let (sitePlacement, st5) := writerEntity st4 (lit "IFCLOCALPLACEMENT") [lit "$", worldAxis]
  let (buildingPlacement, st6) := writerEntity st5 (lit "IFCLOCALPLACEMENT") [sitePlacement, worldAxis]
  let (storeyPlacement, st7) := writerEntity st6 (lit "IFCLOCALPLACEMENT") [buildingPlacement, worldAxis]
  let (project, st8) := writerEntity st7 (lit "IFCPROJECT")
    [lit "'2Q$nYn96f5xhkg5f9JAF7q'", lit "$", quote doc.name, lit "$", lit "$", lit "$", lit "$",
     '(' :: context ++ [')'], units]
  let (site, st9) := writerEntity st8 (lit "IFCSITE")
    [lit "'0$SITE000000000000000000'", lit "$", quote (doc.name ++ lit " Site"), lit "$", lit "$",
     sitePlacement, lit "$", lit "$", lit ".ELEMENT.", lit "$", lit "$", lit "$", lit "$", lit "$"]
  let (building, st10) := writerEntity st9 (lit "IFCBUILDING")
    [lit "'0$BLDG000000000000000000'", lit "$", quote (doc.name ++ lit " Building"), lit "$",
     lit "$", buildingPlacement, lit "$", lit "$", lit ".ELEMENT.", lit "$", lit "$", lit "$"]
  let (storey, st11) := writerEntity st10 (lit "IFCBUILDINGSTOREY")
    [lit "'0$STRY000000000000000000'", lit "$", quote (doc.name ++ lit " Storey"), lit "$",
     lit "$", storeyPlacement, lit "$", lit "$", lit ".ELEMENT.", lit "0."]
  let (proxyIds, st12) := exportModelNodes st11 doc.rootChildren storeyPlacement context
    Mat4.identity
  let (_, st13) := writerEntity st12 (lit "IFCRELAGGREGATES")
    [lit "'0$REL000000000000000000'", lit "$", quote (lit "Project Aggregates"), lit "$",
     project, '(' :: site ++ [')']]
  let (_, st14) := writerEntity st13 (lit "IFCRELAGGREGATES")
    [lit "'0$REL000000000000000001'", lit "$", quote (lit "Site Aggregates"), lit "$",
     site, '(' :: building ++ [')']]
  let (_, st15) := writerEntity st14 (lit "IFCRELAGGREGATES")
    [lit "'0$REL000000000000000002'", lit "$", quote (lit "Building Aggregates"), lit "$",
     building, '(' :: storey ++ [')']]
  if proxyIds ≠ [] then
    (writerEntity st15 (lit "IFCRELCONTAINEDINSPATIALSTRUCTURE")
      [lit "'0$REL000000000000000003'", lit "$", quote (lit "Storey Containment"), lit "$",
       '(' :: joinComma proxyIds ++ [')'], storey]).2
  else st15

/-- The `FILE_NAME` header line, the only place the timestamp appears. -/
def fileNameLine (doc : ExpDocument) (timestamp : List Char) : List Char :=
  lit "FILE_NAME('" ++ doc.name ++ lit ".ifc','" ++ timestamp ++
    lit "',('Chili3D'),('Chili3D'),'Chili3D','Chili3D','');"

/-- `IfcLiteExporter.export`, with the one impure input — the wall-clock
timestamp `new Date().toISOString()` — made an explicit parameter; the
result is the list of output lines (the source joins them with `"\n"`). -/
def exportLines (doc : ExpDocument) (timestamp : List Char) : List (List Char) :=
  [lit "ISO-10303-21;", lit "HEADER;",
   lit "FILE_DESCRIPTION(('ViewDefinition [IFC4X3_ADD2]'),'2;1');",
   fileNameLine doc timestamp,
   lit "FILE_SCHEMA(('IFC4X3_ADD2'));",
   lit "ENDSEC;", lit "DATA;"] ++ (exportWriterState doc).lines ++
  [lit "ENDSEC;", lit "END-ISO-10303-21;"]

/-- `export(document)` as text: the lines joined with newlines. -/
def exportText (doc : ExpDocument) (timestamp : List Char) : List Char :=
  List.intercalate ['\n'] (exportLines doc timestamp)

/-! ## Concrete scenario inputs -/

/-- A rectangle profile `2.0 × 1.0` (the importer test's `#41`). -/
def rectProfileEntity : Entity :=
  ⟨41, lit "IFCRECTANGLEPROFILEDEF", [lit ".AREA.", lit "'Rect'", lit "$", lit "2.0", lit "1.0"]⟩

/-- An identity placement at the origin (the importer test's `#42`/`#5`). -/
def originEntity : Entity := ⟨5, lit "IFCCARTESIANPOINT", [lit "(0.,0.,0.)"]⟩

def axisEntity : Entity := ⟨42, lit "IFCAXIS2PLACEMENT3D", [lit "#5", lit "$", lit "$"]⟩

def zDirEntity : Entity := ⟨43, lit "IFCDIRECTION", [lit "(0.,0.,1.)"]⟩

/-- An extruded area solid of depth `2.0` along `(0,0,1)` sweeping `#41`. -/
def extrudedEntity : Entity :=
  ⟨40, lit "IFCEXTRUDEDAREASOLID", [lit "#41", lit "#42", lit "#43", lit "2.0"]⟩

def extrudedRectMap : List Entity :=
  [originEntity, extrudedEntity, rectProfileEntity, axisEntity, zDirEntity]

/-- A circle profile with a valid radius (`IFCCIRCLEPROFILEDEF`, radius at
argument index 3). -/
def circleProfileEntity : Entity :=
  ⟨41, lit "IFCCIRCLEPROFILEDEF", [lit ".AREA.", lit "'Circ'", lit "$", lit "1.0"]⟩

def circleExtrusionMap : List Entity :=
  [originEntity, extrudedEntity, circleProfileEntity, axisEntity, zDirEntity]

/-- A three-point list with a face tuple referencing point `9` of a
three-point list: the file-level indices run out of range. -/
def outOfRangePointList : Entity :=
  ⟨50, lit "IFCCARTESIANPOINTLIST3D", [lit "((0.,0.,0.),(1.,0.,0.),(0.,1.,0.))"]⟩

def outOfRangeFaceSet : Entity :=
  ⟨60, lit "IFCTRIANGULATEDFACESET", [lit "#50", lit "$", lit ".T.", lit "((1,2,9))", lit "$"]⟩

def outOfRangeMap : List Entity := [outOfRangePointList, outOfRangeFaceSet]

/-- A face set over the same three-point list whose tuple `(1.5,2,3)`
carries a fractional first entry: the file-level index is not an integer. -/
def fractionalFaceSet : Entity :=
  ⟨61, lit "IFCTRIANGULATEDFACESET", [lit "#50", lit "$", lit ".T.", lit "((1.5,2,3))", lit "$"]⟩

def fractionalIndexMap : List Entity := [outOfRangePointList, fractionalFaceSet]

/-- A document with a cyclic aggregation: the project `#1` aggregates
`A = #2`, `A` aggregates `B = #3`, and `B` aggregates `A` back. -/
def cyclicAggregationDoc : List Entity :=
  [⟨1, lit "IFCPROJECT", [lit "'g'", lit "$", lit "'Demo'", lit "$", lit "$", lit "$", lit "$", lit "$"]⟩,
   ⟨2, lit "IFCSITE", [lit "'a'", lit "$", lit "'A'", lit "$", lit "$", lit "$", lit "$", lit "$"]⟩,
   ⟨3, lit "IFCBUILDING", [lit "'b'", lit "$", lit "'B'", lit "$", lit "$", lit "$", lit "$", lit "$"]⟩,
   ⟨10, lit "IFCRELAGGREGATES", [lit "'r'", lit "$", lit "$", lit "$", lit "#1", lit "(#2)"]⟩,
   ⟨11, lit "IFCRELAGGREGATES", [lit "'s'", lit "$", lit "$", lit "$", lit "#2", lit "(#3)"]⟩,
   ⟨12, lit "IFCRELAGGREGATES", [lit "'t'", lit "$", lit "$", lit "$", lit "#3", lit "(#2)"]⟩]

/-- A triangle surface mesh for roundtrip leaves. -/
def triangleMesh : SurfaceMesh := ⟨[0, 0, 0, 1, 0, 0, 0, 1, 0], [0, 1, 2]⟩

/-- A document whose model tree is one container holding two geometry
leaves. -/
def nestedTreeDoc : ExpDocument :=
  ⟨lit "Demo",
   [CadNode.folder (lit "c1") none (lit "Group") none
     [CadNode.meshNode (lit "g1") none (lit "Box1") none triangleMesh,
      CadNode.meshNode (lit "g2") none (lit "Box2") none triangleMesh]]⟩

def sampleTimestamp : List Char := lit "2026-01-01T00:00:00.000Z"

/-- A document with two geometry leaves and no containers at all: the
leaves sit directly at the model root. -/
def flatPairDoc : ExpDocument :=
  ⟨lit "Demo",
   [CadNode.meshNode (lit "g1") none (lit "Box1") none triangleMesh,
    CadNode.meshNode (lit "g2") none (lit "Box2") none triangleMesh]⟩

/-- A document whose model tree nests a container inside a container: the
outer group holds an inner group (with one geometry leaf) and the same
second geometry leaf as `flatPairDoc`. -/
def deepTreeDoc : ExpDocument :=
  ⟨lit "Demo",
   [CadNode.folder (lit "c1") none (lit "Group") none
     [CadNode.folder (lit "c2") none (lit "SubGroup") none
       [CadNode.meshNode (lit "g1") none (lit "Box1") none triangleMesh],
      CadNode.meshNode (lit "g2") none (lit "Box2") none triangleMesh]]⟩

/-! ## Theorems

Concrete evaluations go through the kernel, so the theorems below locally
unseal the `@[irreducible]` rational arithmetic of the standard library. -/

set_option maxRecDepth 100000 in
unseal Rat.add Rat.mul Rat.inv Rat.sub in
/-- **C7.** An extruded area solid with a rectangle profile of dimensions
`2.0 × 1.0`, extruded by depth `2.0` along `(0,0,1)` under an identity
placement, resolves to a mesh with 8 points and exactly 12 triangles, and
every generated point's z-coordinate equals the base elevation `0` or
`0 + 2.0`. -/
theorem extruded_rectangle_mesh :
    (meshFromExtrudedAreaSolid extrudedEntity extrudedRectMap).map (fun m =>
      (m.points.length, m.triangles.length,
        m.points.all (fun p => p.getD 2 0 == 0 || p.getD 2 0 == 2))) =
    some (8, 12, true) := by decide

set_option maxRecDepth 100000 in
unseal Rat.add Rat.mul Rat.inv Rat.sub in
/-- **C8 counterexample.** The scenario the claim asserts — an entity map
holding an extruded area solid whose swept profile is a circle profile with
valid radius, depth and direction — resolves to no polygon and no mesh:
the profile resolver has no circle branch. -/
theorem circle_profile_unresolved :
    byIdGet circleExtrusionMap 41 = some circleProfileEntity ∧
    circleProfileEntity.type = lit "IFCCIRCLEPROFILEDEF" ∧
    resolveProfilePolygon circleExtrusionMap 41 = none ∧
    meshFromExtrudedAreaSolid extrudedEntity circleExtrusionMap = none := by decide

/-- **C8 (amended).** The Geometry Interpreter does not approximate circle
profiles: whenever the swept profile reference resolves to an
`IFCCIRCLEPROFILEDEF` entity, `resolveProfilePolygon` yields absent (only
rectangle and arbitrary closed polyline profiles are handled). -/
theorem circle_profile_always_absent (byId : List Entity) (ref : Nat) (e : Entity)
    (hfind : byIdGet byId ref = some e) (hty : e.type = lit "IFCCIRCLEPROFILEDEF") :
    resolveProfilePolygon byId ref = none := by
  unfold resolveProfilePolygon
  rw [hfind]
  dsimp only
  rw [hty, if_neg (by decide), if_neg (by decide)]

set_option maxRecDepth 100000 in
unseal Rat.add Rat.mul Rat.inv Rat.sub in
/-- Witness for the amended C8 theorem at the concrete circle-profile map. -/
theorem circle_profile_always_absent_witness :
    resolveProfilePolygon circleExtrusionMap 41 = none :=
  circle_profile_always_absent circleExtrusionMap 41 circleProfileEntity (by decide) (by decide)

/-- Triangle rows are well formed: three entries, each non-negative. -/
def trianglesOk (ts : List (List ℚ)) : Prop :=
  ∀ t ∈ ts, t.length = 3 ∧ ∀ x ∈ t, 0 ≤ x

theorem trianglesOk_nil : trianglesOk [] := by intro t ht; cases ht

theorem trianglesOk_append {a b : List (List ℚ)} (ha : trianglesOk a) (hb : trianglesOk b) :
    trianglesOk (a ++ b) := by
  intro t ht
  rcases List.mem_append.1 ht with h | h
  · exact ha t h
  · exact hb t h

theorem parseTriangleTupleList_ok (v : List Char) : trianglesOk (parseTriangleTupleList v) := by
  intro t ht
  unfold parseTriangleTupleList at ht
  rcases List.mem_map.1 ht with ⟨x, _, rfl⟩
  refine ⟨rfl, ?_⟩
  intro y hy
  simp only [List.mem_cons, List.not_mem_nil, or_false] at hy
  rcases hy with rfl | rfl | rfl <;> exact le_max_left 0 _

theorem meshFromTriangulatedFaceSet_ok {faceSet : Entity} {byId : List Entity} {m : RawMesh}
    (h : meshFromTriangulatedFaceSet faceSet byId = some m) : trianglesOk m.triangles := by
  unfold meshFromTriangulatedFaceSet at h
  dsimp only at h
  repeat' split at h
  all_goals try exact Option.noConfusion h
  all_goals injection h with h1
  all_goals subst h1
  all_goals exact parseTriangleTupleList_ok _

theorem triangulatePolygon_ok (polygon : List Nat) : trianglesOk (triangulatePolygon polygon) := by
  intro t ht
  unfold triangulatePolygon at ht
  split at ht
  · cases ht
  · rcases List.mem_map.1 ht with ⟨ab, _, rfl⟩
    refine ⟨rfl, ?_⟩
    intro y hy
    simp only [List.mem_cons, List.not_mem_nil, or_false] at hy
    rcases hy with rfl | rfl | rfl <;> exact Nat.cast_nonneg _

theorem brepBounds_ok (byId : List Entity) (boundRefs : List Nat) :
    ∀ points triangles, trianglesOk triangles →
      trianglesOk (brepBounds byId boundRefs points triangles).2 := by
  induction boundRefs with
  | nil => intro points triangles h; exact h
  | cons boundRef rest ih =>
    intro points triangles h
    unfold brepBounds
    split
    · exact ih points triangles h
    · split
      · split
        · exact ih points triangles h
        · split
          · exact ih points triangles h
          · split
            · exact ih _ _ (trianglesOk_append h (triangulatePolygon_ok _))
            · exact ih points triangles h
      · exact ih points triangles h

theorem brepFaces_ok (byId : List Entity) (faceRefs : List Nat) :
    ∀ points triangles, trianglesOk triangles →
      trianglesOk (brepFaces byId faceRefs points triangles).2 := by
  induction faceRefs with
  | nil => intro points triangles h; exact h
  | cons faceRef rest ih =>
    intro points triangles h
    unfold brepFaces
    split
    · exact ih points triangles h
    · split
      · exact ih _ _ (brepBounds_ok byId _ points triangles h)
      · exact ih points triangles h

theorem meshFromFacetedBrep_ok {brep : Entity} {byId : List Entity} {m : RawMesh}
    (h : meshFromFacetedBrep brep byId = some m) : trianglesOk m.triangles := by
  unfold meshFromFacetedBrep at h
  dsimp only at h
  repeat' split at h
  all_goals try exact Option.noConfusion h
  all_goals injection h with h1
  all_goals subst h1
  all_goals exact brepFaces_ok _ _ _ _ trianglesOk_nil

theorem meshFromExtrudedAreaSolid_ok {extruded : Entity} {byId : List Entity} {m : RawMesh}
    (h : meshFromExtrudedAreaSolid extruded byId = some m) : trianglesOk m.triangles := by
  unfold meshFromExtrudedAreaSolid at h
  dsimp only at h
  repeat' split at h
  all_goals try exact Option.noConfusion h
  all_goals injection h with h1
  all_goals subst h1
  all_goals apply trianglesOk_append
  all_goals intro t ht
  all_goals rcases List.mem_flatMap.1 ht with ⟨k, _, hk⟩
  all_goals simp only [List.mem_cons, List.not_mem_nil, or_false] at hk
  all_goals
    rcases hk with rfl | rfl <;>
      refine ⟨rfl, ?_⟩ <;> intro y hy <;>
      simp only [List.mem_cons, List.not_mem_nil, or_false] at hy <;>
      rcases hy with rfl | rfl | rfl <;> positivity

theorem mappedItemLoop_ok (resolveItem : Nat → List Nat → Option RawMesh × List Nat)
    (hres : ∀ r vis m v, resolveItem r vis = (some m, v) → trianglesOk m.triangles) :
    ∀ refs visited mm m v, mappedItemLoop resolveItem refs visited mm = (some m, v) →
      trianglesOk m.triangles := by
  intro refs
  induction refs with
  | nil =>
    intro visited mm m v h
    unfold mappedItemLoop at h
    exact Option.noConfusion (congrArg Prod.fst h)
  | cons r rest ih =>
    intro visited mm m v h
    unfold mappedItemLoop at h
    split at h
    · rename_i raw vv heq
      injection h with h1 h2
      injection h1 with h1
      subst h1
      exact hres r visited raw vv heq
    · exact ih _ _ _ _ h

/-- **C1 (amended).** Every mesh the Geometry Interpreter produces (over any
entity map, any budget, any visited set) consists of triangle rows of
exactly three non-negative rational indices, so the flat index buffer the
importer builds from it has length a multiple of three — `3 ×` the triangle
count.  Of the original claim's bounds only non-negativity survives: the
strict upper bound `index < point count` is *not* guaranteed, and neither
is integrality (see the counterexample for both) — a triangulated face
set's 1-based tuples are converted by `max 0 (x - 1)` with no range check
against the point list and no integrality check on the parsed value. -/
theorem interpreter_mesh_indices_nonneg :
    ∀ fuel itemRef byId visited m v,
      meshFromRepresentationItem fuel itemRef byId visited = (some m, v) →
      trianglesOk m.triangles ∧
      (buildSurfaceMesh m.points m.triangles).index.length = 3 * m.triangles.length := by
  have flatLen : ∀ m : RawMesh,
      (buildSurfaceMesh m.points m.triangles).index.length = 3 * m.triangles.length := by
    intro m
    unfold buildSurfaceMesh
    generalize m.triangles = ts
    induction ts with
    | nil => rfl
    | cons t ts ih =>
      simp only [List.flatMap_cons, List.length_append, List.length_cons, List.length_nil] at *
      omega
  intro fuel
  induction fuel with
  | zero =>
    intro _ _ _ m v h
    exact absurd (congrArg Prod.fst h) (by simp [meshFromRepresentationItem])
  | succ fuel ih =>
    intro itemRef byId visited m v h
    refine ⟨?_, flatLen m⟩
    unfold meshFromRepresentationItem at h
    split at h
    · exact absurd (congrArg Prod.fst h) (by simp)
    · split at h
      · exact absurd (congrArg Prod.fst h) (by simp)
      · split at h
        · exact meshFromTriangulatedFaceSet_ok (congrArg Prod.fst h)
        · split at h
          · exact meshFromFacetedBrep_ok (congrArg Prod.fst h)
          · split at h
            · exact meshFromExtrudedAreaSolid_ok (congrArg Prod.fst h)
            · split at h
              · split at h
                · exact (ih _ _ _ _ _ h).1
                · exact absurd (congrArg Prod.fst h) (by simp)
              · split at h
                · split at h
                  · exact absurd (congrArg Prod.fst h) (by simp)
                  · split at h
                    · exact absurd (congrArg Prod.fst h) (by simp)
                    · split at h
                      · split at h
                        · exact absurd (congrArg Prod.fst h) (by simp)
                        · split at h
                          · exact absurd (congrArg Prod.fst h) (by simp)
                          · split at h
                            · exact mappedItemLoop_ok _
                                (fun r vis m' v' hh => (ih r byId vis m' v' hh).1)
                                _ _ _ _ _ h
                            · exact absurd (congrArg Prod.fst h) (by simp)
                      · exact absurd (congrArg Prod.fst h) (by simp)
                · exact absurd (congrArg Prod.fst h) (by simp)

set_option maxRecDepth 100000 in
unseal Rat.add Rat.mul Rat.inv Rat.sub in
/-- **C1 counterexample.** Both bounds the original claim puts on a
triangle index fail.  A triangulated face set over a three-point list
whose face tuple `(1,2,9)` references the out-of-range point 9 resolves to
a mesh with 3 points and the triangle `(0,1,8)`: the index `8` is *not*
strictly less than the point count 3.  And the face tuple `(1.5,2,3)` over
the same point list resolves to the triangle `(1/2,1,2)`: the index `1/2`
is *not* an integer (its reduced denominator is 2, not 1), because
`max 0 (x - 1)` converts the parsed file value with no integrality check
either. -/
theorem face_set_index_out_of_range :
    (((meshFromRepresentationItem 3 60 outOfRangeMap []).1.map (fun m =>
      (m.points.length, m.triangles))) = some (3, [[0, 1, 8]]) ∧
    ¬ ((8 : ℚ) < 3)) ∧
    ((meshFromRepresentationItem 3 61 fractionalIndexMap []).1.map (fun m =>
      (m.points.length, m.triangles))) = some (3, [[1/2, 1, 2]]) ∧
    ¬ (((1 : ℚ)/2).den = 1) := by decide

/-- The statement scanner's string-literal flag after reading the text from
a given starting flag (same transitions as `splitStatementsAux`). -/
def ssInString : List Char → Bool → Bool
  | [], s => s
  | '\'' :: '\'' :: rest, true => ssInString rest true
  | '\'' :: rest, true => ssInString rest false
  | '\'' :: rest, false => ssInString rest true
  | _ :: rest, s => ssInString rest s

/-- The argument scanner's final state (parenthesis depth and literal flag)
after reading the text (same transitions as `splitTopLevelAux`); the claim's
"balanced parentheses and literals" is `stState value 0 false = (0, false)`. -/
def stState : List Char → Int → Bool → Int × Bool
  | [], d, s => (d, s)
  | '\'' :: '\'' :: rest, d, true => stState rest d true
  | '\'' :: rest, d, true => stState rest d false
  | '\'' :: rest, d, false => stState rest d true
  | c :: rest, d, false =>
      if c = '(' then stState rest (d + 1) false
      else if c = ')' then stState rest (d - 1) false
      else stState rest d false
  | _ :: rest, d, true => stState rest d true

/-- The number of top-level commas the argument scanner sees: commas at
parenthesis depth zero outside string literals (same transitions as
`splitTopLevelAux`). -/
def stCommaCount : List Char → Int → Bool → Nat
  | [], _, _ => 0
  | '\'' :: '\'' :: rest, d, true => stCommaCount rest d true
  | '\'' :: rest, d, true => stCommaCount rest d false
  | '\'' :: rest, d, false => stCommaCount rest d true
  | c :: rest, d, false =>
      if c = '(' then stCommaCount rest (d + 1) false
      else if c = ')' then stCommaCount rest (d - 1) false
      else if c = ',' ∧ d = 0 then stCommaCount rest d false + 1
      else stCommaCount rest d false
  | _ :: rest, d, true => stCommaCount rest d true

/-- Whether the token the argument scanner is accumulating at the end of
the text (the segment after the last top-level comma, prefixed by `cur`)
trims to something non-blank (same transitions as `splitTopLevelAux`). -/
def stLastSegNonBlank : List Char → List Char → Int → Bool → Bool
  | [], cur, _, _ => ¬ trimL cur = []
  | '\'' :: '\'' :: rest, cur, d, true => stLastSegNonBlank rest (cur ++ ['\'', '\'']) d true
  | '\'' :: rest, cur, d, true => stLastSegNonBlank rest (cur ++ ['\'']) d false
  | '\'' :: rest, cur, d, false => stLastSegNonBlank rest (cur ++ ['\'']) d true
  | c :: rest, cur, d, false =>
      if c = '(' then stLastSegNonBlank rest (cur ++ [c]) (d + 1) false
      else if c = ')' then stLastSegNonBlank rest (cur ++ [c]) (d - 1) false
      else if c = ',' ∧ d = 0 then stLastSegNonBlank rest [] d false
      else stLastSegNonBlank rest (cur ++ [c]) d false
  | c :: rest, cur, d, true => stLastSegNonBlank rest (cur ++ [c]) d true

/-- The number of top-level commas of a whole argument string. -/
def topLevelCommaCount (value : List Char) : Nat := stCommaCount value 0 false

/-- Whether the segment after the last top-level comma is non-blank. -/
def finalSegmentNonBlank (value : List Char) : Bool := stLastSegNonBlank value [] 0 false

set_option maxRecDepth 100000 in
unseal Rat.add Rat.mul Rat.inv Rat.sub in
/-- Witness for the amended C1 theorem at the out-of-range face set. -/
theorem interpreter_mesh_indices_nonneg_witness :
    trianglesOk ((⟨[[0, 0, 0], [1, 0, 0], [0, 1, 0]], [[0, 1, 8]]⟩ : RawMesh).triangles) ∧
    (buildSurfaceMesh
        (⟨[[0, 0, 0], [1, 0, 0], [0, 1, 0]], [[0, 1, 8]]⟩ : RawMesh).points
        (⟨[[0, 0, 0], [1, 0, 0], [0, 1, 0]], [[0, 1, 8]]⟩ : RawMesh).triangles).index.length =
      3 * (⟨[[0, 0, 0], [1, 0, 0], [0, 1, 0]], [[0, 1, 8]]⟩ : RawMesh).triangles.length :=
  interpreter_mesh_indices_nonneg 3 60 outOfRangeMap []
    ⟨[[0, 0, 0], [1, 0, 0], [0, 1, 0]], [[0, 1, 8]]⟩ [60] (by decide)

theorem collapse_doubleQuotes (s : List Char) : collapseQuotes (doubleQuotes s) = s := by
  induction s with
  | nil => rfl
  | cons c t ih =>
    by_cases hc : c = '\''
    · subst hc
      simp [doubleQuotes, collapseQuotes, ih]
    · simp [doubleQuotes, collapseQuotes, hc, ih]

theorem trimL_quote (s : List Char) : trimL (quote s) = quote s := by
  have h1 : List.dropWhile isJsWs (quote s) = quote s := by
    simp [quote, List.dropWhile, isJsWs]
  have h2 : (quote s).reverse.dropWhile isJsWs = (quote s).reverse := by
    have hrev : (quote s).reverse = '\'' :: ((doubleQuotes s).reverse ++ ['\'']) := by
      simp [quote]
    rw [hrev]
    simp [List.dropWhile, isJsWs]
  unfold trimL
  rw [h1, h2, List.reverse_reverse]

/-- **C6.** `unquote (quote s) = s` for every string `s`, including strings
containing single quote characters: the exporter's doubled-quote encoding
is decoded exactly by the parser's literal helper. -/
theorem unquote_quote (s : List Char) : unquote (quote s) = s := by
  unfold unquote
  rw [trimL_quote]
  rw [if_neg ?notDollar]
  case notDollar =>
    rintro (h | h) <;> simp [quote] at h
  rw [if_pos ?isQuoted]
  case isQuoted =>
    constructor
    · simp [quote]
    · show (('\'' :: doubleQuotes s) ++ ['\'']).getLast? = some '\''
      exact List.getLast?_concat _
  have hdrop : (quote s).drop 1 = doubleQuotes s ++ ['\''] := by simp [quote]
  rw [hdrop, List.dropLast_concat, collapse_doubleQuotes]

/-- **C4 counterexample.** In the statement `#1=T(a;b)` the `;` sits inside
an unclosed parenthesis group (and outside any literal), yet the splitter
ends a statement there: no parenthesis depth is tracked. -/
theorem semicolon_inside_parens_splits :
    splitStatements (lit "#1=T(a;b)") = [lit "#1=T(a", lit "b)"] := by decide

/-- The statement splitter distributes over a semicolon at any point where
the scanner is outside a string literal, whatever the parenthesis depth. -/
theorem splitStatementsAux_semicolon :
    ∀ (a cur : List Char) (s : Bool) (b : List Char), ssInString a s = false →
      splitStatementsAux (a ++ ';' :: b) cur s =
        splitStatementsAux a cur s ++ splitStatementsAux b [] false := by
  intro a cur s
  induction a, cur, s using splitStatementsAux.induct with
  | case1 cur x h =>
    intro b hs
    simp only [ssInString] at hs
    subst hs
    simp [splitStatementsAux, h]
  | case2 cur x h =>
    intro b hs
    simp only [ssInString] at hs
    subst hs
    simp [splitStatementsAux, h]
  | case3 rest cur ih =>
    intro b hs
    exact ih b hs
  | case4 rest cur hne ih =>
    intro b hs
    rw [ssInString] at hs
    · simp only [List.cons_append]
      rw [splitStatementsAux]
      · rw [splitStatementsAux]
        · exact ih b hs
        · exact hne
      · intro r1 hr
        cases rest with
        | nil =>
          injection hr with hx
          exact absurd hx (by decide)
        | cons x t =>
          rw [List.cons_append] at hr
          injection hr with hx
          exact hne t (by rw [hx])
    · exact hne
  | case5 rest cur ih =>
    intro b hs
    rw [ssInString] at hs
    simp only [List.cons_append]
    rw [splitStatementsAux, splitStatementsAux]
    exact ih b hs
  | case6 rest cur ih =>
    intro b hs
    simp only [List.cons_append]
    rw [splitStatementsAux, splitStatementsAux, ih b hs, List.append_assoc]
  | case7 c rest cur inString h1 h2 h3 h4 ih =>
    intro b hs
    rw [ssInString] at hs
    · simp only [List.cons_append]
      rw [splitStatementsAux]
      · rw [splitStatementsAux]
        · exact ih b hs
        · exact h1
        · exact h2
        · exact h3
        · exact h4
      · intro r1 hc hr hq
        subst hc
        cases rest with
        | nil =>
          injection hr with hx
          exact absurd hx (by decide)
        | cons x t =>
          rw [List.cons_append] at hr
          injection hr with hx
          exact h1 t rfl (by rw [hx]) hq
      · exact h2
      · exact h3
      · exact h4
    · exact h1
    · exact h2
    · exact h3

/-- **C4 (amended).** A `;` is honored as a statement boundary at every
point where the scanner is outside a string literal — parenthesis depth is
*not* consulted: for every prefix `a` whose literal scan ends outside a
string and every suffix `b`, splitting `a ++ ";" ++ b` yields exactly the
statements of `a` followed by the statements of `b`. -/
theorem splitStatements_semicolon_boundary (a b : List Char)
    (h : ssInString a false = false) :
    splitStatements (a ++ ';' :: b) = splitStatements a ++ splitStatements b :=
  splitStatementsAux_semicolon a [] false b h

/-- Witness for the amended C4 theorem: a semicolon inside an (unclosed)
parenthesis group still ends the statement. -/
theorem splitStatements_semicolon_boundary_witness :
    ssInString (lit "#1=T(a") false = false ∧
    splitStatements (lit "#1=T(a" ++ ';' :: lit "b)") =
      splitStatements (lit "#1=T(a") ++ splitStatements (lit "b)") :=
  ⟨by decide, splitStatements_semicolon_boundary (lit "#1=T(a") (lit "b)") (by decide)⟩


/-- The token count of the argument splitter, exactly: the number of
top-level commas, plus one more token when the final segment is non-blank
(a blank final segment is dropped). -/
theorem splitTopLevelAux_length :
    ∀ (cs cur : List Char) (d : Int) (s : Bool),
      (splitTopLevelAux cs cur d s).length =
        stCommaCount cs d s + (if stLastSegNonBlank cs cur d s then 1 else 0) := by
  intro cs cur d s
  induction cs, cur, d, s using splitTopLevelAux.induct with
  | case1 cur x x1 h => simp [splitTopLevelAux, stCommaCount, stLastSegNonBlank, h]
  | case2 cur x x1 h => simp [splitTopLevelAux, stCommaCount, stLastSegNonBlank, h]
  | case3 rest cur d ih => exact ih
  | case4 rest cur d hne ih =>
    rw [splitTopLevelAux]
    · rw [stCommaCount]
      · rw [stLastSegNonBlank]
        · exact ih
        · exact hne
      · exact hne
    · exact hne
  | case5 rest cur d ih =>
    rw [splitTopLevelAux, stCommaCount, stLastSegNonBlank]
    exact ih
  | case6 rest cur d h ih => exact ih
  | case7 rest cur d h hlp ih => exact ih
  | case8 c rest cur d hq hlp hrp hcomma ih =>
    rw [splitTopLevelAux]
    · rw [stCommaCount]
      · rw [stLastSegNonBlank]
        · simp only [if_neg hlp, if_neg hrp, if_pos hcomma]
          rw [List.length_cons, ih]
          omega
        · exact hq
      · exact hq
    · exact hq
  | case9 c rest cur d hq hlp hrp hcomma ih =>
    rw [splitTopLevelAux]
    · rw [stCommaCount]
      · rw [stLastSegNonBlank]
        · simp only [if_neg hlp, if_neg hrp, if_neg hcomma]
          exact ih
        · exact hq
      · exact hq
    · exact hq
  | case10 c rest cur d h1 hq ih =>
    rw [splitTopLevelAux]
    · rw [stCommaCount]
      · rw [stLastSegNonBlank]
        · exact ih
        · exact h1
        · exact hq
      · exact h1
      · exact hq
    · exact h1
    · exact hq

/-- **C5 (amended).** For every argument string, `splitTopLevel` returns
exactly `topLevelCommaCount` tokens plus one more when the segment after
the last top-level comma is non-blank; when that final segment is blank it
is dropped, so the count is exactly the number of top-level commas — the
"plus one" of the original claim holds exactly when the final segment is
non-blank, balanced or not. -/
theorem splitTopLevel_token_count (value : List Char) :
    (splitTopLevel value).length =
      topLevelCommaCount value + (if finalSegmentNonBlank value then 1 else 0) :=
  splitTopLevelAux_length value [] 0 false

/-- **C5 counterexample.** The input `"a,"` has balanced parentheses and
literals (final scan state `(0, false)`) and one top-level comma, yet
`splitTopLevel` returns one token, not `1 + 1`: the blank final segment is
dropped. -/
theorem splitTopLevel_blank_final_token :
    stState (lit "a,") 0 false = (0, false) ∧
    topLevelCommaCount (lit "a,") = 1 ∧
    (splitTopLevel (lit "a,")).length = 1 := by decide


theorem parseStatements_append (xs ys : List (List Char)) :
    parseStatements (xs ++ ys) = parseStatements xs ++ parseStatements ys := by
  induction xs with
  | nil => rfl
  | cons st rest ih =>
    simp only [List.cons_append, parseStatements]
    cases matchEntityStatement st with
    | none => exact ih
    | some r => simp [ih]

theorem parseStatements_eq_filterMap (xs : List (List Char)) :
    parseStatements xs = xs.filterMap (fun st =>
      (matchEntityStatement st).map (fun r =>
        ⟨r.1, r.2.1, splitTopLevel r.2.2⟩ : Nat × List Char × List Char → Entity)) := by
  induction xs with
  | nil => rfl
  | cons st rest ih =>
    simp only [parseStatements, List.filterMap_cons]
    cases matchEntityStatement st with
    | none => exact ih
    | some r => simp [ih]

/-- **C9.** A data-section statement that does not match the
`#id=TYPE(args)` shape is skipped and the remaining statements still parse:
the parsed entity list over statements `pre ++ [bad] ++ post` is exactly
the one over `pre ++ post`, and in general `parse` returns exactly the
well-shaped statements' entities (it is a total function — nothing is
thrown). -/
theorem parse_skips_malformed (text : List Char) (pre post : List (List Char))
    (bad : List Char)
    (hsplit : splitStatements (extractDataSection text) = pre ++ bad :: post)
    (hbad : matchEntityStatement bad = none) :
    parse text = parseStatements (pre ++ post) ∧
    parse text = (splitStatements (extractDataSection text)).filterMap (fun st =>
      (matchEntityStatement st).map (fun r =>
        ⟨r.1, r.2.1, splitTopLevel r.2.2⟩ : Nat × List Char × List Char → Entity)) := by
  constructor
  · show parseStatements (splitStatements (extractDataSection text)) = _
    rw [hsplit, parseStatements_append, parseStatements_append]
    simp [parseStatements, hbad]
  · exact parseStatements_eq_filterMap _

/-- Witness text for C9: a well-shaped statement, then garbage, then
another well-shaped statement. -/
def malformedSampleText : List Char :=
  lit "DATA;\n#1=IFCPROJECT('g');\nGARBAGE TEXT;\n#2=IFCSITE('s');\nENDSEC;"

/-- Witness for C9 at a concrete document with one malformed statement. -/
theorem parse_skips_malformed_witness :
    parse malformedSampleText =
      parseStatements ([lit "#1=IFCPROJECT('g')"] ++ [lit "#2=IFCSITE('s')"]) ∧
    parse malformedSampleText =
      (splitStatements (extractDataSection malformedSampleText)).filterMap (fun st =>
        (matchEntityStatement st).map (fun r =>
          ⟨r.1, r.2.1, splitTopLevel r.2.2⟩ : Nat × List Char × List Char → Entity)) :=
  parse_skips_malformed malformedSampleText
    [lit "#1=IFCPROJECT('g')"] [lit "#2=IFCSITE('s')"]
    (lit "GARBAGE TEXT")
    (by decide) (by decide)

/-- **C10.** Two exports of the same document differ at most in the
`FILE_NAME` header line (index 3), which embeds the wall-clock timestamp;
every other line — in particular the whole `DATA` section — is a
deterministic function of the document alone. -/
theorem export_deterministic_modulo_timestamp (doc : ExpDocument)
    (t1 t2 : List Char) :
    (exportLines doc t1).length = (exportLines doc t2).length ∧
    ((exportLines doc t1).getD 3 [] = fileNameLine doc t1 ∧
      (exportLines doc t2).getD 3 [] = fileNameLine doc t2) ∧
    ∀ i, i ≠ 3 → (exportLines doc t1).getD i [] = (exportLines doc t2).getD i [] := by
  refine ⟨by simp [exportLines], ⟨rfl, rfl⟩, ?_⟩
  intro i hi
  match i with
  | 0 => rfl
  | 1 => rfl
  | 2 => rfl
  | 3 => exact absurd rfl hi
  | (n + 4) =>
    show ((lit "FILE_SCHEMA(('IFC4X3_ADD2'));" :: lit "ENDSEC;" :: lit "DATA;" ::
        ((exportWriterState doc).lines ++ [lit "ENDSEC;", lit "END-ISO-10303-21;"])).getD n [])
      = _
    rfl

/-- Witness for C10 at a concrete document, two timestamps and line 0. -/
theorem export_deterministic_modulo_timestamp_witness :
    (exportLines nestedTreeDoc sampleTimestamp).length =
      (exportLines nestedTreeDoc (lit "2026-02-02T12:00:00.000Z")).length ∧
    ((exportLines nestedTreeDoc sampleTimestamp).getD 3 [] =
        fileNameLine nestedTreeDoc sampleTimestamp ∧
      (exportLines nestedTreeDoc (lit "2026-02-02T12:00:00.000Z")).getD 3 [] =
        fileNameLine nestedTreeDoc (lit "2026-02-02T12:00:00.000Z")) ∧
    (exportLines nestedTreeDoc sampleTimestamp).getD 0 [] =
      (exportLines nestedTreeDoc (lit "2026-02-02T12:00:00.000Z")).getD 0 [] :=
  let h := export_deterministic_modulo_timestamp nestedTreeDoc sampleTimestamp
    (lit "2026-02-02T12:00:00.000Z")
  ⟨h.1, h.2.1, h.2.2 0 (by decide)⟩


/-! Helper lemmas for the spatial graph builder's termination measure. -/

theorem filter_length_mono {α : Type} (p q : α → Bool) (h : ∀ a, p a = true → q a = true) :
    ∀ l : List α, (l.filter p).length ≤ (l.filter q).length := by
  intro l
  induction l with
  | nil => exact Nat.le_refl 0
  | cons a t ih =>
    by_cases hp : p a = true
    · simp [List.filter_cons, hp, h a hp]
      omega
    · simp only [List.filter_cons, Bool.not_eq_true] at *
      rw [hp]
      cases hq : q a <;> simp <;> omega

theorem filter_length_lt {α : Type} (p q : α → Bool) (h : ∀ a, p a = true → q a = true)
    (i : α) (hqi : q i = true) (hpi : p i = false) :
    ∀ l : List α, i ∈ l → (l.filter p).length < (l.filter q).length := by
  intro l
  induction l with
  | nil => intro hmem; cases hmem
  | cons a t ih =>
    intro hmem
    rcases List.mem_cons.1 hmem with rfl | hmem
    · simp only [List.filter_cons, hpi, hqi]
      have := filter_length_mono p q h t
      simp
      omega
    · have := ih hmem
      by_cases hp : p a = true
      · simp only [List.filter_cons, hp, h a hp]
        simpa using Nat.succ_lt_succ this
      · simp only [Bool.not_eq_true] at hp
        simp only [List.filter_cons, hp]
        cases hq : q a <;> simp <;> omega

/-- The number of entity ids not yet visited: the builder's recursion
measure. -/
def unvisitedCount (byId : List Entity) (v : List Nat) : Nat :=
  ((byId.map Entity.id).filter (fun j => !(v.contains j))).length

theorem unvisitedCount_subset (byId : List Entity) {v w : List Nat} (h : v ⊆ w) :
    unvisitedCount byId w ≤ unvisitedCount byId v := by
  apply filter_length_mono
  intro a ha
  simp at ha ⊢
  exact fun hv => ha (h hv)

theorem unvisitedCount_cons_lt (byId : List Entity) {v : List Nat} {i : Nat}
    (hi : i ∈ byId.map Entity.id) (hni : i ∉ v) :
    unvisitedCount byId (i :: v) < unvisitedCount byId v := by
  refine filter_length_lt _ _ ?_ i ?_ ?_ _ hi
  · intro a ha
    simp at ha ⊢
    exact ha.2
  · simp
    exact hni
  · simp

theorem unvisitedCount_le_length (byId : List Entity) (v : List Nat) :
    unvisitedCount byId v ≤ byId.length := by
  calc unvisitedCount byId v ≤ (byId.map Entity.id).length := List.length_filter_le _ _
  _ = byId.length := List.length_map _ _

theorem byIdGet_id_mem {byId : List Entity} {i : Nat} {e : Entity}
    (h : byIdGet byId i = some e) : i ∈ byId.map Entity.id := by
  unfold byIdGet at h
  have hmem := List.mem_of_find?_eq_some h
  have hpred := List.find?_some h
  simp only [decide_eq_true_eq] at hpred
  rw [List.mem_reverse] at hmem
  rw [List.mem_map]
  exact ⟨e, hmem, hpred⟩

theorem treeChildrenLoop_visited_mono (f : Nat → List Nat → CadNode × List Nat)
    (hf : ∀ c w, w ⊆ (f c w).2) :
    ∀ cs v, v ⊆ (treeChildrenLoop f cs v).2 := by
  intro cs
  induction cs with
  | nil => intro v; exact fun x hx => hx
  | cons c rest ih =>
    intro v
    show v ⊆ (treeChildrenLoop f rest (f c v).2).2
    exact fun x hx => ih ((f c v).2) (hf c v hx)

theorem createTreeNode_visited_mono :
    ∀ (fuel : Nat) (byId : List Entity) (cm : Nat → List Nat) (id : Nat) (v : List Nat),
      v ⊆ (createTreeNode fuel byId cm id v).2 := by
  intro fuel
  induction fuel with
  | zero => intro byId cm id v; exact fun x hx => hx
  | succ fuel ih =>
    intro byId cm id v
    rw [createTreeNode]
    dsimp only
    split
    · exact fun x hx => hx
    · split
      · intro x hx
        exact treeChildrenLoop_visited_mono _ (fun c w => ih byId cm c w) _ (id :: v)
          (List.mem_cons_of_mem _ hx)
      · exact fun x hx => List.mem_cons_of_mem _ hx

theorem treeChildrenLoop_congr_on {f g : Nat → List Nat → CadNode × List Nat}
    (P : List Nat → Prop) (hP : ∀ c w, P w → P (f c w).2)
    (hfg : ∀ c w, P w → f c w = g c w) :
    ∀ cs v, P v → treeChildrenLoop f cs v = treeChildrenLoop g cs v := by
  intro cs
  induction cs with
  | nil => intro v _; rfl
  | cons c rest ih =>
    intro v hv
    have h1 : f c v = g c v := hfg c v hv
    have h2 := ih ((f c v).2) (hP c v hv)
    show ((f c v).1 :: (treeChildrenLoop f rest ((f c v).2)).1,
        (treeChildrenLoop f rest ((f c v).2)).2) =
      ((g c v).1 :: (treeChildrenLoop g rest ((g c v).2)).1,
        (treeChildrenLoop g rest ((g c v).2)).2)
    rw [← h1, h2]

theorem createTreeNode_stable :
    ∀ (n : Nat) (byId : List Entity) (cm : Nat → List Nat) (f1 f2 id : Nat) (v : List Nat),
      unvisitedCount byId v < n → unvisitedCount byId v < f1 → unvisitedCount byId v < f2 →
      createTreeNode f1 byId cm id v = createTreeNode f2 byId cm id v := by
  intro n
  induction n with
  | zero => intro byId cm f1 f2 id v hn; exact absurd hn (Nat.not_lt_zero _)
  | succ n ihn =>
    intro byId cm f1 f2 id v hn h1 h2
    match f1, f2 with
    | a + 1, b + 1 =>
      rw [createTreeNode, createTreeNode]
      dsimp only
      split
      · rfl
      · rename_i hcond
        push_neg at hcond
        have hidmem : id ∈ byId.map Entity.id := by
          rcases hget : byIdGet byId id with _ | e
          · exact absurd hget hcond.1
          · exact byIdGet_id_mem hget
        have hidnotv : id ∉ v := by
          intro hin
          exact hcond.2 (by simp [List.elem_iff, hin])
        have hlt : unvisitedCount byId (id :: v) < unvisitedCount byId v :=
          unvisitedCount_cons_lt byId hidmem hidnotv
        have hloop :
            treeChildrenLoop (fun c w => createTreeNode a byId cm c w) (cm id) (id :: v) =
            treeChildrenLoop (fun c w => createTreeNode b byId cm c w) (cm id) (id :: v) := by
          apply treeChildrenLoop_congr_on
            (fun w => unvisitedCount byId w ≤ unvisitedCount byId (id :: v))
          · intro c w hw
            calc unvisitedCount byId (createTreeNode a byId cm c w).2
                ≤ unvisitedCount byId w :=
                  unvisitedCount_subset byId (createTreeNode_visited_mono a byId cm c w)
            _ ≤ _ := hw
          · intro c w hw
            exact ihn byId cm a b c w (by omega) (by omega) (by omega)
          · exact Nat.le_refl _
        split
        · rw [hloop]
        · rfl


theorem createIfcNode_shape (e : Option Entity) (id : Nat) (byId : List Entity) :
    createIfcNode e id byId = CadNode.folder [] (some id) (toDisplayName e) none [] ∨
    ∃ mesh, createIfcNode e id byId = CadNode.meshNode [] (some id) (toDisplayName e) none mesh := by
  unfold createIfcNode
  cases e with
  | none => exact Or.inl rfl
  | some e =>
    dsimp only
    cases h : tryExtractMesh e byId with
    | none => exact Or.inl rfl
    | some mesh => exact Or.inr ⟨mesh, rfl⟩

theorem countExpandedForId_createIfcNode (e : Option Entity) (id : Nat) (byId : List Entity)
    (i : Nat) : countExpandedForId i (createIfcNode e id byId) = 0 := by
  rcases createIfcNode_shape e id byId with h | ⟨mesh, h⟩ <;> rw [h] <;> rfl

theorem treeChildrenLoop_expand_invariant (f : Nat → List Nat → CadNode × List Nat)
    (hmono : ∀ c w, w ⊆ (f c w).2)
    (hf : ∀ c w i, countExpandedForId i (f c w).1 ≤ 1 ∧
        (i ∈ w → countExpandedForId i (f c w).1 = 0) ∧
        (1 ≤ countExpandedForId i (f c w).1 → i ∈ (f c w).2)) :
    ∀ cs v i, countExpandedForIdList i (treeChildrenLoop f cs v).1 ≤ 1 ∧
      (i ∈ v → countExpandedForIdList i (treeChildrenLoop f cs v).1 = 0) ∧
      (1 ≤ countExpandedForIdList i (treeChildrenLoop f cs v).1 →
        i ∈ (treeChildrenLoop f cs v).2) := by
  intro cs
  induction cs with
  | nil =>
    intro v i
    exact ⟨Nat.zero_le 1, fun _ => rfl, fun h => absurd h (Nat.not_succ_le_zero 0)⟩
  | cons c rest ih =>
    intro v i
    have hstep1 : (treeChildrenLoop f (c :: rest) v).1 =
        (f c v).1 :: (treeChildrenLoop f rest ((f c v).2)).1 := rfl
    have hstep2 : (treeChildrenLoop f (c :: rest) v).2 =
        (treeChildrenLoop f rest ((f c v).2)).2 := rfl
    rw [hstep1, hstep2]
    have hcl : countExpandedForIdList i ((f c v).1 :: (treeChildrenLoop f rest ((f c v).2)).1) =
        countExpandedForId i (f c v).1 +
          countExpandedForIdList i (treeChildrenLoop f rest ((f c v).2)).1 := rfl
    rw [hcl]
    obtain ⟨ha1, ha2, ha3⟩ := hf c v i
    obtain ⟨hb1, hb2, hb3⟩ := ih ((f c v).2) i
    have hloopmono := treeChildrenLoop_visited_mono f hmono rest ((f c v).2)
    refine ⟨?_, ?_, ?_⟩
    · by_cases h1 : 1 ≤ countExpandedForId i (f c v).1
      · have := hb2 (ha3 h1)
        omega
      · omega
    · intro hv
      have h0 := ha2 hv
      have h0' := hb2 (hmono c v hv)
      omega
    · intro hsum
      by_cases h1 : 1 ≤ countExpandedForId i (f c v).1
      · exact hloopmono (ha3 h1)
      · exact hb3 (by omega)

theorem createTreeNode_expand_invariant :
    ∀ (fuel : Nat) (byId : List Entity) (cm : Nat → List Nat) (id : Nat) (v : List Nat)
      (i : Nat),
      countExpandedForId i (createTreeNode fuel byId cm id v).1 ≤ 1 ∧
      (i ∈ v → countExpandedForId i (createTreeNode fuel byId cm id v).1 = 0) ∧
      (1 ≤ countExpandedForId i (createTreeNode fuel byId cm id v).1 →
        i ∈ (createTreeNode fuel byId cm id v).2) := by
  intro fuel
  induction fuel with
  | zero =>
    intro byId cm id v i
    exact ⟨Nat.zero_le 1, fun _ => rfl, fun h => absurd h (Nat.not_succ_le_zero 0)⟩
  | succ fuel ih =>
    intro byId cm id v i
    rw [createTreeNode]
    dsimp only
    split
    · refine ⟨?_, fun _ => ?_, fun h => ?_⟩
      · rw [countExpandedForId_createIfcNode]
        omega
      · exact countExpandedForId_createIfcNode _ _ _ _
      · rw [countExpandedForId_createIfcNode] at h
        exact absurd h (Nat.not_succ_le_zero 0)
    · rename_i hcond
      push_neg at hcond
      have hidnotv : id ∉ v := by
        intro hin
        exact hcond.2 (by simp [List.elem_iff, hin])
      split
      · rename_i hfold
        rcases createIfcNode_shape (byIdGet byId id) id byId with hn | ⟨mesh, hn⟩
        · rw [hn]
          have hmono : ∀ c w, w ⊆ (createTreeNode fuel byId cm c w).2 :=
            fun c w => createTreeNode_visited_mono fuel byId cm c w
          have hloop := treeChildrenLoop_expand_invariant
            (fun c w => createTreeNode fuel byId cm c w) hmono
            (fun c w j => ih byId cm c w j) (cm id) (id :: v) i
          have hloopmono := treeChildrenLoop_visited_mono
            (fun c w => createTreeNode fuel byId cm c w) hmono (cm id) (id :: v)
          obtain ⟨hl1, hl2, hl3⟩ := hloop
          set children :=
            (treeChildrenLoop (fun c w => createTreeNode fuel byId cm c w) (cm id) (id :: v)).1
            with hch
          have hwc : (CadNode.folder [] (some id) (toDisplayName (byIdGet byId id)) none
              []).withChildren children = CadNode.folder [] (some id)
              (toDisplayName (byIdGet byId id)) none children := rfl
          rw [hwc]
          cases hchildren : children with
          | nil =>
            exact ⟨Nat.zero_le 1, fun _ => rfl, fun h => absurd h (Nat.not_succ_le_zero 0)⟩
          | cons c0 cs0 =>
            have hce : countExpandedForId i (CadNode.folder [] (some id)
                (toDisplayName (byIdGet byId id)) none (c0 :: cs0)) =
                (if (some id : Option Nat) = some i then 1 else 0) +
                  countExpandedForIdList i (c0 :: cs0) := rfl
            rw [hce]
            rw [hchildren] at hl1 hl2 hl3
            by_cases hii : id = i
            · subst hii
              have hz : countExpandedForIdList id (c0 :: cs0) = 0 :=
                hl2 (List.mem_cons_self _ _)
              refine ⟨by simp [hz], fun hv => absurd hv hidnotv, fun _ =>
                hloopmono (List.mem_cons_self _ _)⟩
            · have hni : ((some id : Option Nat) = some i) = False := by
                simp [hii]
              refine ⟨?_, ?_, ?_⟩
              · simp only [hni, if_false]
                omega
              · intro hv
                simp only [hni, if_false]
                rw [Nat.zero_add]
                exact hl2 (List.mem_cons_of_mem _ hv)
              · intro hsum
                simp only [hni, if_false] at hsum
                rw [Nat.zero_add] at hsum
                exact hl3 hsum
        · rw [hn] at hfold
          exact absurd hfold (by simp [CadNode.isFolder])
      · refine ⟨?_, fun _ => ?_, fun h => ?_⟩
        · rw [countExpandedForId_createIfcNode]
          omega
        · exact countExpandedForId_createIfcNode _ _ _ _
        · rw [countExpandedForId_createIfcNode] at h
          exact absurd h (Nat.not_succ_le_zero 0)

/-- **C2 (amended).** The Spatial Graph Builder terminates on every
document, cyclic aggregation included: its result is independent of the
recursion budget once the budget exceeds the entity count (the visited set
forces progress), and each entity id is *expanded* into its adjacency
children at most once.  The original "exactly one node per entity" fails:
an id reached again inside a cycle produces an additional childless
placeholder node (see the counterexample). -/
theorem createTreeNode_cycle_safe (byId : List Entity) (cm : Nat → List Nat)
    (id f1 f2 : Nat) (h1 : byId.length < f1) (h2 : byId.length < f2) :
    createTreeNode f1 byId cm id [] = createTreeNode f2 byId cm id [] ∧
    ∀ i, countExpandedForId i (createTreeNode f1 byId cm id []).1 ≤ 1 := by
  constructor
  · exact createTreeNode_stable (byId.length + 1) byId cm f1 f2 id []
      (Nat.lt_succ_of_le (unvisitedCount_le_length byId []))
      (Nat.lt_of_le_of_lt (unvisitedCount_le_length byId []) h1)
      (Nat.lt_of_le_of_lt (unvisitedCount_le_length byId []) h2)
  · intro i
    exact (createTreeNode_expand_invariant f1 byId cm id [] i).1

/-- Witness for the amended C2 theorem on the cyclic document. -/
theorem createTreeNode_cycle_safe_witness :
    createTreeNode 7 cyclicAggregationDoc (buildChildrenMap cyclicAggregationDoc) 1 [] =
      createTreeNode 8 cyclicAggregationDoc (buildChildrenMap cyclicAggregationDoc) 1 [] ∧
    countExpandedForId 2
      (createTreeNode 7 cyclicAggregationDoc (buildChildrenMap cyclicAggregationDoc) 1 []).1
      ≤ 1 :=
  let h := createTreeNode_cycle_safe cyclicAggregationDoc
    (buildChildrenMap cyclicAggregationDoc) 1 7 8 (by decide) (by decide)
  ⟨h.1, h.2 2⟩

/-- **C2 counterexample.** In the cyclic document where the project `#1`
aggregates `A = #2`, `A` aggregates `B = #3` and `B` aggregates `A` back,
`build` terminates but produces *two* nodes for `A` (the expanded one and a
childless placeholder created when `A` is re-encountered), not exactly
one. -/
theorem cyclic_aggregation_duplicate_node :
    buildChildrenMap cyclicAggregationDoc 3 = [2] ∧
    countNodesForId 2 (importDocument cyclicAggregationDoc) = 2 ∧
    countNodesForId 3 (importDocument cyclicAggregationDoc) = 1 := by decide

/-- Composing with the identity frame is the identity on frames. -/
theorem Mat4.multiply_identity (a : Mat4) : a.multiply Mat4.identity = a := by
  cases a
  simp [Mat4.multiply, Mat4.identity]

/-- Claim C3 (amended).  The export walk flattens containers: a container
node carrying no transform contributes to the written file exactly what its
children contribute, spliced into its place in the sibling list — the
container itself emits no entity, so container arity is not represented in
the exported text at all (and therefore cannot be reproduced by a
re-import). -/
theorem export_flattens_containers (st : WState) (g : List Char) (e : Option Nat)
    (n : List Char) (c : CadNode) (cs rest : List CadNode)
    (placement context : List Char) (T : Mat4) :
    exportNodesAux st (CadNode.folder g e n none (c :: cs) :: rest) placement context T =
      (let r1 := exportNodesAux st (c :: cs) placement context T
       let r2 := exportNodesAux r1.2 rest placement context T
       (r1.1 ++ r2.1, r2.2)) := by
  conv_lhs => rw [exportNodesAux]
  dsimp only [exportNodeDispatch, getNodeTransform, Option.getD]
  rw [Mat4.multiply_identity]

/-- The nested-container document and the flat two-leaf document export the
same proxy walk, from any writer state. -/
theorem exportNodes_deep_flat (st : WState) (p ctx : List Char) :
    exportNodesAux st deepTreeDoc.rootChildren p ctx Mat4.identity =
      exportNodesAux st flatPairDoc.rootChildren p ctx Mat4.identity := by
  simp [deepTreeDoc, flatPairDoc, exportNodesAux, exportNodeDispatch, getNodeTransform,
    Mat4.multiply_identity]

/-- The two documents produce identical writer output. -/
theorem exportWriterState_deep_flat :
    exportWriterState deepTreeDoc = exportWriterState flatPairDoc := by
  unfold exportWriterState exportModelNodes
  simp only [exportNodes_deep_flat, show deepTreeDoc.name = flatPairDoc.name from rfl]

/-- The two documents produce identical export text. -/
theorem exportText_deep_flat :
    exportText deepTreeDoc sampleTimestamp = exportText flatPairDoc sampleTimestamp := by
  unfold exportText exportLines fileNameLine
  rw [exportWriterState_deep_flat, show deepTreeDoc.name = flatPairDoc.name from rfl]

/-- Claim C3, counterexample.  `build(write(tree))` cannot reproduce the
container/leaf shape of every tree: the nested document
`Group [SubGroup [leaf], leaf]` and the flat document `[leaf, leaf]` have
different shapes, yet the exporter writes the *identical* text for both
(containers are flattened away), so the two round-trips are one and the
same tree — it cannot match the nested shape and the flat shape at once.
Both documents are trees of containers and geometry leaves without
cycles, so at least one of them refutes the original claim. -/
theorem roundtrip_shape_not_preserved :
    NodeShape.encList (shapeOfList deepTreeDoc.rootChildren) ≠
      NodeShape.encList (shapeOfList flatPairDoc.rootChildren) ∧
    exportText deepTreeDoc sampleTimestamp = exportText flatPairDoc sampleTimestamp ∧
    ¬ (shapeOf (importText (exportText deepTreeDoc sampleTimestamp)) =
         NodeShape.container (shapeOfList deepTreeDoc.rootChildren) ∧
       shapeOf (importText (exportText flatPairDoc sampleTimestamp)) =
         NodeShape.container (shapeOfList flatPairDoc.rootChildren)) := by
  refine ⟨by decide, exportText_deep_flat, fun ⟨h1, h2⟩ => ?_⟩
  have hsh : shapeOf (importText (exportText deepTreeDoc sampleTimestamp)) =
      shapeOf (importText (exportText flatPairDoc sampleTimestamp)) :=
    congrArg (fun t => shapeOf (importText t)) exportText_deep_flat
  rw [h1, h2] at hsh
  exact absurd (congrArg NodeShape.enc hsh) (by decide)

end IfcLite
